import Mathlib

/-!
# Verification of the `chromeoxid_pdl` generation engine

A shallow embedding of `src/chromeoxid_pdl/src/build/generator.rs`: the
pipeline that turns parsed PDL protocol documents into generated Rust
type definitions.  Pure string/code-layout concerns are modelled
structurally (a `TyPath` instead of a `TokenStream`); the mutable
`Generator` state (`type_size` table, `ref_sizes` worklist, `domains`
registration map) is threaded explicitly; panics become `Except.error`.
-/

namespace Chromeoxid

/-! ## String helpers

`heck`'s `to_camel_case` / `to_snake_case` conversions, and the
`rsplitn(2, '.')` splitting used by `projected_type`.
-/

/-- Split a character list at every occurrence of the separator. -/
def splitChar (sep : Char) : List Char → List (List Char)
  | [] => [[]]
  | c :: cs =>
    let r := splitChar sep cs
    if c = sep then [] :: r
    else
      match r with
      | [] => [[c]]
      | w :: ws => (c :: w) :: ws

/-- Join character-list words with a separator between them. -/
def intercalateChar (sep : Char) : List (List Char) → List Char
  | [] => []
  | [w] => w
  | w :: ws => w ++ sep :: intercalateChar sep ws

/-- Uppercase the first character. -/
def capitalizeChars : List Char → List Char
  | [] => []
  | c :: cs => c.toUpper :: cs

/-- Uppercase the first character of a string. -/
def capitalize (s : String) : String :=
  String.mk (capitalizeChars s.data)

/-- Model of `heck::CamelCase` (`to_camel_case`): capitalize each
underscore-separated word. -/
def toCamelCase (s : String) : String :=
  String.mk (((splitChar '_' s.data).map capitalizeChars).flatten)

/-- Expansion of one character for snake-casing. -/
def snakeChar (c : Char) : List Char :=
  if c.isUpper then ['_', c.toLower] else [c]

/-- Model of `heck::SnakeCase` (`to_snake_case`): lowercase, with an
underscore inserted before every interior uppercase letter. -/
def toSnakeCase (s : String) : String :=
  match s.data with
  | [] => ""
  | c :: cs => String.mk (c.toLower :: cs.foldr (fun ch acc => snakeChar ch ++ acc) [])

/-- The last `.`-separated segment of a qualified name
(`name.rsplit('.').next().unwrap()`). -/
def lastSegment (s : String) : String :=
  String.mk ((splitChar '.' s.data).getLastD s.data)

/-- Everything before the last `.`-separated segment
(the `path` side of `name.rsplitn(2, '.')`); empty when unqualified. -/
def pathQualifier (s : String) : String :=
  String.mk (intercalateChar '.' ((splitChar '.' s.data).dropLast))

/-! ## Association maps

The Rust code uses `HashMap<String, _>`; only lookup, overwriting insert
(`insert`) and additive update (`entry(..).or_default() += ..`) are used,
so an association list with those three operations is a faithful model.
-/

/-- `HashMap::get`. -/
def alookup {α : Type} (m : List (String × α)) (k : String) : Option α :=
  (m.find? (fun p => p.1 == k)).map Prod.snd

/-- `HashMap::insert`: overwrites any previous entry for the key. -/
def aset {α : Type} (m : List (String × α)) (k : String) (v : α) : List (String × α) :=
  (k, v) :: m.filter (fun p => !(p.1 == k))

/-- `*map.entry(k).or_default() += v`: add to the existing entry, or
insert `v` if the key is absent. -/
def aadd (m : List (String × Nat)) (k : String) (v : Nat) : List (String × Nat) :=
  match alookup m k with
  | some s => aset m k (s + v)
  | none => aset m k v

/-! ## The parsed PDL IR (`crate::pdl`)

The IR is produced by the external parser (out of scope per the spec);
its shape is fixed by the spec's §3 data model and by how
`generator.rs` consumes it.
-/

/-- A named enum variant (`pdl::Variant`). -/
structure Variant where
  name : String
  description : Option String
deriving DecidableEq

/-- The closed type variant set (`pdl::Type`). -/
inductive PType where
  | integer
  | number
  | boolean
  | string
  | object
  | any
  | binary
  | enum (variants : List Variant)
  | arrayOf (t : PType)
  | ref (name : String)
deriving DecidableEq

/-- `Type::is_integer`. -/
def PType.isInteger : PType → Bool
  | .integer => true
  | _ => false

/-- `Type::is_string`. -/
def PType.isString : PType → Bool
  | .string => true
  | _ => false

/-- A named field of a datatype (`pdl::Param`). -/
structure Param where
  name : String
  description : Option String
  optional : Bool
  deprecated : Bool
  experimental : Bool
  type : PType
deriving DecidableEq

/-- The body of a `TypeDef`: either a bare variant list or a property
list (absent for a pure alias). -/
inductive TypeItem where
  | enumOf (variants : List Variant)
  | properties (params : List Param)
deriving DecidableEq

/-- A named type definition (`pdl::TypeDef`); `extendsTy` is the aliased
base type (`extends` in the source, a Lean keyword here). -/
structure TypeDef where
  name : String
  description : Option String
  deprecated : Bool
  experimental : Bool
  extendsTy : PType
  item : Option TypeItem
deriving DecidableEq

/-- A request/response command (`pdl::Command`). -/
structure Command where
  name : String
  description : Option String
  deprecated : Bool
  experimental : Bool
  params : List Param
  returns : List Param
deriving DecidableEq

/-- A one-way event (`pdl::Event`). -/
structure Event where
  name : String
  description : Option String
  deprecated : Bool
  experimental : Bool
  params : List Param
deriving DecidableEq

/-- The three datatype kinds dispatched over by the generator
(`build::types::DomainDatatype`). -/
inductive DomainDatatype where
  | type (td : TypeDef)
  | command (c : Command)
  | event (e : Event)
deriving DecidableEq

def DomainDatatype.name : DomainDatatype → String
  | .type td => td.name
  | .command c => c.name
  | .event e => e.name

def DomainDatatype.description : DomainDatatype → Option String
  | .type td => td.description
  | .command c => c.description
  | .event e => e.description

def DomainDatatype.isDeprecated : DomainDatatype → Bool
  | .type td => td.deprecated
  | .command c => c.deprecated
  | .event e => e.deprecated

def DomainDatatype.isExperimental : DomainDatatype → Bool
  | .type td => td.experimental
  | .command c => c.experimental
  | .event e => e.experimental

def DomainDatatype.isType : DomainDatatype → Bool
  | .type _ => true
  | _ => false

def DomainDatatype.isCommand : DomainDatatype → Bool
  | .command _ => true
  | _ => false

def DomainDatatype.isEvent : DomainDatatype → Bool
  | .event _ => true
  | _ => false

/-- `DomainDatatype::params()`: the field list of the datatype. -/
def DomainDatatype.params : DomainDatatype → List Param
  | .type td =>
    match td.item with
    | some (TypeItem.properties ps) => ps
    | _ => []
  | .command c => c.params
  | .event e => e.params

/-- `DomainDatatype::as_enum()`: the variant list when the datatype is a
bare enum `TypeDef`. -/
def DomainDatatype.asEnum : DomainDatatype → Option (List Variant)
  | .type td =>
    match td.item with
    | some (TypeItem.enumOf vs) => some vs
    | _ => none
  | _ => none

/-- `DomainDatatype::ident_name()`: the camel-cased Rust identifier of
the datatype. -/
def DomainDatatype.identName (dt : DomainDatatype) : String :=
  toCamelCase dt.name

/-- A named group of datatypes (`pdl::Domain`); `datatypes` is the
domain's iteration order over its types, commands and events. -/
structure Domain where
  name : String
  description : Option String
  deprecated : Bool
  experimental : Bool
  datatypes : List DomainDatatype
deriving DecidableEq

/-- The `major.minor` protocol version of one document. -/
structure ProtocolVersion where
  major : String
  minor : String
deriving DecidableEq

/-- One parsed PDL document (`pdl::Protocol`). -/
structure Protocol where
  version : ProtocolVersion
  domains : List Domain
deriving DecidableEq

/-! ## Generator configuration and state -/

/-- Serde support mode (`SerdeSupport`). -/
inductive SerdeSupport where
  | none
  | default
  | feature (name : String)
deriving DecidableEq

/-- The generator: configuration plus the run's mutable state
(`struct Generator`). -/
structure Generator where
  serdeSupport : SerdeSupport
  withExperimental : Bool
  withDeprecated : Bool
  protocolMods : List String
  domains : List (String × Nat)
  targetMod : Option String
  typeSize : List (String × Nat)
  refSizes : List (String × String)
deriving DecidableEq

/-- `Generator::default()`. -/
def Generator.default : Generator :=
  { serdeSupport := SerdeSupport.default
    withExperimental := true
    withDeprecated := false
    protocolMods := []
    domains := []
    targetMod := Option.none
    typeSize := []
    refSizes := [] }

/-! ## Inclusion filters

Every filtering site in the source uses the same pair of predicates:
`with_deprecated || !x.deprecated` and
`with_experimental || !x.experimental`.
-/

def includedFlags (g : Generator) (deprecated experimental : Bool) : Bool :=
  (g.withDeprecated || !deprecated) && (g.withExperimental || !experimental)

def domainIncluded (g : Generator) (d : Domain) : Bool :=
  includedFlags g d.deprecated d.experimental

def dtIncluded (g : Generator) (dt : DomainDatatype) : Bool :=
  includedFlags g dt.isDeprecated dt.isExperimental

def paramIncluded (g : Generator) (p : Param) : Bool :=
  includedFlags g p.deprecated p.experimental

def filterParams (g : Generator) (ps : List Param) : List Param :=
  ps.filter (paramIncluded g)

/-! ## Emitted type shapes

The source emits `TokenStream`s; the embedding keeps the structure that
the claims are about: the path shape of a reference and the `Vec`/`Box`
wrappers applied by `FieldType::new_vec` / `FieldType::new_box`.
-/

/-- The path shape of an emitted type reference. -/
inductive TyPath where
  /-- A bare identifier (primitive, same-domain type, hoisted enum). -/
  | name (ident : String)
  /-- `super::<domain_mod>::<Ident>`: sibling domain, same document. -/
  | sibling (domainMod : String) (ident : String)
  /-- `super::super::<doc_mod>::<domain_mod>::<Ident>`: a domain from a
  different input document. -/
  | crossDoc (docMod : String) (domainMod : String) (ident : String)
deriving DecidableEq

/-- Whether the path traverses into another document's top-level module. -/
def TyPath.hasDocSegment : TyPath → Bool
  | .crossDoc _ _ _ => true
  | _ => false

/-- An emitted field type (`FieldType`): a path with any `Vec`/`Box`
wrapping applied. -/
inductive RustTy where
  | path (p : TyPath)
  | vec (t : RustTy)
  | box (t : RustTy)
deriving DecidableEq

/-- A size contribution: either a directly known size
(`Either::Left(usize)`) or a deferred reference to a named type
(`Either::Right(String)`). -/
inductive SizeOrRef where
  | size (n : Nat)
  | ref (name : String)
deriving DecidableEq

/-! Sizes are `std::mem::size_of` values on the 64-bit build host. -/

def USIZE_I64 : Nat := 8
def USIZE_F64 : Nat := 8
def USIZE_BOOL : Nat := 1
def USIZE_STRING : Nat := 24
def USIZE_JSON_VALUE : Nat := 32
def USIZE_U8 : Nat := 1
def USIZE_VEC : Nat := 24
def USIZE_BOX : Nat := 8

/-! ## Name mangling helpers -/

/-- The keyword escaping shared by `field_name` and `type_name`. -/
def escapeKeyword (name : String) : String :=
  if name == "type" then "r#type"
  else if name == "mod" then "r#mod"
  else if name == "override" then "r#override"
  else name

/-- `field_name`: snake-case a parameter name, escaping Rust keywords. -/
def field_name (name : String) : String :=
  escapeKeyword (toSnakeCase name)

/-- `type_name`: camel-case a type name, escaping Rust keywords. -/
def type_name (name : String) : String :=
  escapeKeyword (toCamelCase name)

/-- `subenum_name`: the name of a hoisted enum, parent type name plus
field name. -/
def subenum_name (parent inner : String) : String :=
  toCamelCase parent ++ type_name inner

/-- The key under which a deferred `Ref` size is recorded:
`name.rsplit('.').next().unwrap().to_string().to_camel_case()`. -/
def deferredRefKey (name : String) : String :=
  toCamelCase (lastSegment name)

/-! ## Path projection (`Generator::projected_type`) -/

/-- `Generator::projected_type`: resolve a possibly domain-qualified
reference to a path, looking up the owning-document index of the current
and the referenced domain.  The source `unwrap`/`panic!`s on a missing
registration; here that is an `Except.error`. -/
def projected_type (g : Generator) (domain : Domain) (name : String) :
    Except String TyPath :=
  let tyName := lastSegment name
  let path := pathQualifier name
  let ident := toCamelCase tyName
  if path == "" then
    Except.ok (TyPath.name ident)
  else
    match alookup g.domains domain.name with
    | Option.none => Except.error ("No domain registered for " ++ domain.name)
    | some currentIdx =>
      match alookup g.domains path with
      | Option.none => Except.error ("No referenced domain found for " ++ path)
      | some refIdx =>
        if currentIdx == refIdx then
          Except.ok (TyPath.sibling (toSnakeCase path) ident)
        else
          Except.ok (TyPath.crossDoc (g.protocolMods.getD refIdx "")
            (toSnakeCase path) ident)

/-! ## Field type resolution (`Generator::generate_field_type`) -/

/-- `Generator::generate_field_type`: map an IR type to an emitted field
type and a size contribution. -/
def generate_field_type (g : Generator) (domain : Domain)
    (parent paramName : String) : PType → Except String (RustTy × SizeOrRef)
  | PType.integer =>
    Except.ok (RustTy.path (TyPath.name "i64"), SizeOrRef.size USIZE_I64)
  | PType.number =>
    Except.ok (RustTy.path (TyPath.name "f64"), SizeOrRef.size USIZE_F64)
  | PType.boolean =>
    Except.ok (RustTy.path (TyPath.name "bool"), SizeOrRef.size USIZE_BOOL)
  | PType.string =>
    Except.ok (RustTy.path (TyPath.name "String"), SizeOrRef.size USIZE_STRING)
  | PType.object =>
    Except.ok (RustTy.path (TyPath.name "serde_json::Value"),
      SizeOrRef.size USIZE_JSON_VALUE)
  | PType.any =>
    Except.ok (RustTy.path (TyPath.name "serde_json::Value"),
      SizeOrRef.size USIZE_JSON_VALUE)
  | PType.binary =>
    Except.ok (RustTy.vec (RustTy.path (TyPath.name "u8")),
      SizeOrRef.size USIZE_U8)
  | PType.enum _ =>
    Except.ok (RustTy.path (TyPath.name (subenum_name parent paramName)),
      SizeOrRef.size 16)
  | PType.arrayOf (PType.ref name) =>
    match projected_type g domain name with
    | Except.error e => Except.error e
    | Except.ok p =>
      Except.ok (RustTy.vec (RustTy.path p), SizeOrRef.size USIZE_VEC)
  | PType.arrayOf t =>
    match generate_field_type g domain parent paramName t with
    | Except.error e => Except.error e
    | Except.ok (ty, _) => Except.ok (RustTy.vec ty, SizeOrRef.size USIZE_VEC)
  | PType.ref name =>
    if name == parent then
      Except.ok (RustTy.box (RustTy.path (TyPath.name (toCamelCase name))),
        SizeOrRef.size USIZE_BOX)
    else
      match projected_type g domain name with
      | Except.error e => Except.error e
      | Except.ok p =>
        Except.ok (RustTy.path p, SizeOrRef.ref (deferredRefKey name))

/-- `Generator::store_size`: add a known size to the type's running
total, or push a deferred `(dependent, reference)` pair. -/
def store_size (g : Generator) (ty : String) : SizeOrRef → Generator
  | SizeOrRef.size n => { g with typeSize := aadd g.typeSize ty n }
  | SizeOrRef.ref name => { g with refSizes := g.refSizes ++ [(ty, name)] }

/-! ## Enum synthesis (`Generator::generate_enum`, `generate_enum_str_fns`) -/

/-- The `(variant ident, wire string)` pairs that drive the generated
`as_str` and `FromStr` implementations (`generate_enum_str_fns`): the
match arms pair `format_ident!("{}", s.name.to_camel_case())` with the
raw variant name. -/
def generate_enum_str_fns (variants : List Variant) : List (String × String) :=
  variants.map (fun v => (toCamelCase v.name, v.name))

/-- The generated `as_str` function: first match arm whose variant ident
equals the value. -/
def enumAsStr (pairs : List (String × String)) (v : String) : Option String :=
  (pairs.find? (fun p => p.1 == v)).map Prod.snd

/-- The generated `FromStr::from_str` function: first match arm whose
wire string equals the input, otherwise `Err(s.to_string())`. -/
def enumFromStr (pairs : List (String × String)) (s : String) :
    Except String String :=
  match pairs.find? (fun p => p.2 == s) with
  | some p => Except.ok p.1
  | Option.none => Except.error s

/-- One generated enum definition with its string conversion arms. -/
structure EnumOut where
  name : String
  strPairs : List (String × String)
deriving DecidableEq

/-- `Generator::generate_enum`: record the fixed nominal enum size (16)
under the enum's camel-cased unqualified name, and emit the enum with
its string-conversion functions. -/
def generate_enum (g : Generator) (ident : Variant) (variants : List Variant) :
    Generator × EnumOut :=
  let enumName := toCamelCase (lastSegment ident.name)
  ({ g with typeSize := aset g.typeSize enumName 16 },
   { name := enumName, strPairs := generate_enum_str_fns variants })

/-! ## Struct synthesis (`Generator::generate_struct`) -/

/-- One generated struct field. -/
structure FieldDef where
  name : String
  ty : RustTy
  optional : Bool
  deprecated : Bool
deriving DecidableEq

/-- Modelled from the spec: the builder synthesizer (§4.3) lives in
`build/builder.rs`, which is not among the provided sources.  Per the
spec it is "constructed only with all mandatory fields supplied as
arguments" and "exposes one chainable setter per optional field",
producing the final struct value named by `target`. -/
structure BuilderOut where
  target : String
  ctorArgs : List String
  setters : List String
deriving DecidableEq

/-- Modelled from the spec: build the §4.3 builder for a field list. -/
def mkBuilder (target : String) (fields : List FieldDef) : BuilderOut :=
  { target
    ctorArgs := (fields.filter (fun f => !f.optional)).map FieldDef.name
    setters := (fields.filter (fun f => f.optional)).map FieldDef.name }

/-- The structural content of one `generate_struct` emission. -/
structure StructOut where
  ident : String
  fields : List FieldDef
  hoisted : List EnumOut
  wrapper : Option RustTy
  hashEq : Bool
  asRefStr : Bool
  emptyMarker : Bool
  builder : Option BuilderOut
deriving DecidableEq

/-- The inline-enum hoisting step at the top of `generate_struct`'s
parameter loop: a parameter whose type is an inline `Enum` first emits a
hoisted named enum (`subenum_name(dt.name(), param.name())`). -/
def hoistEnum (g : Generator) (dt : DomainDatatype) (p : Param) :
    Generator × List EnumOut :=
  match p.type with
  | PType.enum vs =>
    let he := generate_enum g
      { name := subenum_name dt.name p.name, description := p.description } vs
    (he.1, [he.2])
  | _ => (g, [])

/-- The per-parameter loop of `generate_struct`: hoist inline enums,
resolve each field type, and accumulate its size contribution for
`structIdent`. -/
def genFields (g : Generator) (domain : Domain) (dt : DomainDatatype)
    (structIdent : String) :
    List Param → Except String (Generator × List FieldDef × List EnumOut)
  | [] => Except.ok (g, [], [])
  | p :: ps =>
    match generate_field_type (hoistEnum g dt p).1 domain dt.name p.name p.type with
    | Except.error e => Except.error e
    | Except.ok (ty, sz) =>
      match genFields (store_size (hoistEnum g dt p).1 structIdent sz)
          domain dt structIdent ps with
      | Except.error e => Except.error e
      | Except.ok (g', fs, es) =>
        Except.ok (g',
          { name := field_name p.name
            ty := ty
            optional := p.optional
            deprecated := p.deprecated } :: fs,
          (hoistEnum g dt p).2 ++ es)

/-- `Generator::generate_struct`: emit a struct for the (already
filtered) parameter list.  With no fields, a `TypeDef` becomes a
single-field wrapper over its alias target (hashable/equatable for
integer aliases, plus an `AsRef<str>` view for string aliases) and any
other datatype becomes an empty marker struct of recorded size `0`;
with fields, the struct definition is emitted and the builder impl is
added only for commands and typedefs. -/
def generate_struct (g : Generator) (domain : Domain) (dt : DomainDatatype)
    (structIdent : String) (params : List Param) :
    Except String (Generator × StructOut) :=
  match genFields g domain dt structIdent params with
  | Except.error e => Except.error e
  | Except.ok (g1, fields, hoisted) =>
    if fields.isEmpty then
      match dt with
      | DomainDatatype.type td =>
        match generate_field_type g1 domain dt.name dt.name td.extendsTy with
        | Except.error e => Except.error e
        | Except.ok (wty, sz) =>
          Except.ok (store_size g1 structIdent sz,
            { ident := structIdent
              fields := []
              hoisted := hoisted
              wrapper := some wty
              hashEq := td.extendsTy.isInteger || td.extendsTy.isString
              asRefStr := td.extendsTy.isString
              emptyMarker := false
              builder := Option.none })
      | _ =>
        Except.ok ({ g1 with typeSize := aset g1.typeSize structIdent 0 },
          { ident := structIdent
            fields := []
            hoisted := hoisted
            wrapper := Option.none
            hashEq := false
            asRefStr := false
            emptyMarker := true
            builder := Option.none })
    else
      Except.ok (g1,
        { ident := structIdent
          fields := fields
          hoisted := hoisted
          wrapper := Option.none
          hashEq := false
          asRefStr := false
          emptyMarker := false
          builder :=
            if dt.isCommand || dt.isType then some (mkBuilder structIdent fields)
            else Option.none })

/-! ## Per-datatype generation (`Generator::generate_type`) -/

/-- The structural content of one `generate_type` emission: either a
bare enum, or a main struct (plus, for commands, the `<Name>Returns`
struct). -/
structure TypeOut where
  dtName : String
  bareEnum : Option EnumOut
  main : Option StructOut
  returns : Option StructOut
deriving DecidableEq

/-- `Generator::generate_type`: bare-enum typedefs become enums;
everything else becomes a struct over its filtered parameters, and a
command additionally emits its `<Name>Returns` struct over the filtered
returns list. -/
def generate_type (g : Generator) (domain : Domain) (dt : DomainDatatype) :
    Except String (Generator × TypeOut) :=
  match dt.asEnum with
  | some vars =>
    let ge := generate_enum g { name := dt.name, description := dt.description } vars
    Except.ok (ge.1,
      { dtName := dt.name, bareEnum := some ge.2
        main := Option.none, returns := Option.none })
  | Option.none =>
    match generate_struct g domain dt dt.identName (filterParams g dt.params) with
    | Except.error e => Except.error e
    | Except.ok (g1, main) =>
      match dt with
      | DomainDatatype.command c =>
        match generate_struct g1 domain dt (toCamelCase c.name ++ "Returns")
            (filterParams g1 c.returns) with
        | Except.error e => Except.error e
        | Except.ok (g2, ret) =>
          Except.ok (g2,
            { dtName := dt.name, bareEnum := Option.none
              main := some main, returns := some ret })
      | _ =>
        Except.ok (g1,
          { dtName := dt.name, bareEnum := Option.none
            main := some main, returns := Option.none })

/-! ## Domain and document generation -/

/-- The filtered fold of `Generator::generate_domain` over a domain's
datatypes. -/
def genDatatypes (g : Generator) (domain : Domain) :
    List DomainDatatype → Except String (Generator × List TypeOut)
  | [] => Except.ok (g, [])
  | dt :: rest =>
    if dtIncluded g dt then
      match generate_type g domain dt with
      | Except.error e => Except.error e
      | Except.ok (g1, t) =>
        match genDatatypes g1 domain rest with
        | Except.error e => Except.error e
        | Except.ok (g2, ts) => Except.ok (g2, t :: ts)
    else genDatatypes g domain rest

/-- `Generator::generate_domain`. -/
def generate_domain (g : Generator) (domain : Domain) :
    Except String (Generator × List TypeOut) :=
  genDatatypes g domain domain.datatypes

/-- One generated domain module. -/
structure DomainOut where
  name : String
  modName : String
  items : List TypeOut
deriving DecidableEq

/-- The filtered fold of `Generator::generate_types` over a document's
domains: each included domain becomes a module named by its snake-cased
name. -/
def genDomains (g : Generator) :
    List Domain → Except String (Generator × List DomainOut)
  | [] => Except.ok (g, [])
  | d :: rest =>
    if domainIncluded g d then
      match generate_domain g d with
      | Except.error e => Except.error e
      | Except.ok (g1, items) =>
        match genDomains g1 rest with
        | Except.error e => Except.error e
        | Except.ok (g2, ds) =>
          Except.ok (g2,
            { name := d.name, modName := toSnakeCase d.name, items := items } :: ds)
    else genDomains g rest

/-- `Generator::generate_types` for one document. -/
def generate_types (g : Generator) (domains : List Domain) :
    Except String (Generator × List DomainOut) :=
  genDomains g domains

/-- The per-document loop of `compile_pdls`: generate every document's
domain modules in order. -/
def genProtocols (g : Generator) :
    List (String × Protocol) → Except String (Generator × List (String × List DomainOut))
  | [] => Except.ok (g, [])
  | (modName, p) :: rest =>
    match generate_types g p.domains with
    | Except.error e => Except.error e
    | Except.ok (g1, ds) =>
      match genProtocols g1 rest with
      | Except.error e => Except.error e
      | Except.ok (g2, ps) => Except.ok (g2, (modName, ds) :: ps)

/-! ## Registration and the deferred-size fix-up pass -/

/-- Register every domain of one document under the document's index
(`self.domains.extend(..)`; a `HashMap` insert overwrites). -/
def extendDomains (m : List (String × Nat)) (idx : Nat) :
    List Domain → List (String × Nat)
  | [] => m
  | d :: ds => extendDomains (aset m d.name idx) idx ds

/-- The registration loop of `compile_pdls`: map every domain name to
the index of its owning document. -/
def registerDomains (m : List (String × Nat)) (idx : Nat) :
    List (String × Protocol) → List (String × Nat)
  | [] => m
  | (_, p) :: rest => registerDomains (extendDomains m idx p.domains) (idx + 1) rest

/-- The registration phase of `compile_pdls`: push every document's
module name and build the domain→document index map before any
generation happens. -/
def registerPhase (g : Generator) (inputs : List (String × Protocol)) : Generator :=
  { g with
    protocolMods := g.protocolMods ++ inputs.map Prod.fst
    domains := registerDomains g.domains 0 inputs }

/-- The fix-up pass of `compile_pdls`: drain the deferred worklist in
push order; each pair looks up the referenced type's already-computed
size in the current table and adds it to the dependent type's running
total.  A missing entry is the source's
`panic!("No type found for ref {}")`. -/
def drainRefs (table : List (String × Nat)) :
    List (String × String) → Except String (List (String × Nat))
  | [] => Except.ok table
  | (name, reff) :: rest =>
    match alookup table reff with
    | Option.none => Except.error ("No type found for ref " ++ reff)
    | some s => drainRefs (aadd table name s) rest

/-! ## Event union assembly (`Generator::generate_event_enums`) -/

/-- One case of the global `Event` union. -/
structure EventVariant where
  varIdent : String
  docMod : String
  domainMod : String
  tyIdent : String
  boxed : Bool
deriving DecidableEq

/-- Build one `Event` union case: look up the domain's owning document
and the event type's finalized size; the payload is boxed exactly when
the size reaches 200. -/
def mkEventVariant (g : Generator) (domain : Domain) (dt : DomainDatatype) :
    Except String EventVariant :=
  match alookup g.domains domain.name with
  | Option.none => Except.error ("No matching domain registered for " ++ domain.name)
  | some idx =>
    match alookup g.typeSize dt.identName with
    | Option.none => Except.error ("No type found for ref " ++ dt.identName)
    | some size =>
      Except.ok
        { varIdent := toCamelCase domain.name ++ toCamelCase dt.name
          docMod := g.protocolMods.getD idx ""
          domainMod := toSnakeCase domain.name
          tyIdent := dt.identName
          boxed := if size < 200 then false else true }

/-- The event filter of `generate_event_enums`. -/
def eventIncluded (g : Generator) (dt : DomainDatatype) : Bool :=
  dt.isEvent && dtIncluded g dt

/-- The inner event loop of `generate_event_enums` over one domain's
datatypes. -/
def genEventsDts (g : Generator) (domain : Domain) :
    List DomainDatatype → Except String (List EventVariant)
  | [] => Except.ok []
  | dt :: rest =>
    if eventIncluded g dt then
      match mkEventVariant g domain dt with
      | Except.error e => Except.error e
      | Except.ok v =>
        match genEventsDts g domain rest with
        | Except.error e => Except.error e
        | Except.ok vs => Except.ok (v :: vs)
    else genEventsDts g domain rest

/-- The domain loop of `generate_event_enums`. -/
def genEventsDomains (g : Generator) :
    List Domain → Except String (List EventVariant)
  | [] => Except.ok []
  | d :: rest =>
    if domainIncluded g d then
      match genEventsDts g d d.datatypes with
      | Except.error e => Except.error e
      | Except.ok vs =>
        match genEventsDomains g rest with
        | Except.error e => Except.error e
        | Except.ok ws => Except.ok (vs ++ ws)
    else genEventsDomains g rest

/-- `Generator::generate_event_enums`: the flattened, filtered event
cases across every document. -/
def generate_event_enums (g : Generator) :
    List Protocol → Except String (List EventVariant)
  | [] => Except.ok []
  | p :: rest =>
    match genEventsDomains g p.domains with
    | Except.error e => Except.error e
    | Except.ok vs =>
      match generate_event_enums g rest with
      | Except.error e => Except.error e
      | Except.ok ws => Except.ok (vs ++ ws)

/-! ## The whole pipeline (`Generator::compile_pdls`, sans I/O) -/

/-- The generated output of one run. -/
structure Output where
  protocols : List (String × List DomainOut)
  typeSize : List (String × Nat)
  events : List EventVariant
deriving DecidableEq

/-- The empty output. -/
def emptyOutput : Output :=
  { protocols := [], typeSize := [], events := [] }

/-- `Generator::compile_pdls`, minus file I/O and formatting: register
all documents, generate every domain module, drain the deferred size
worklist, then assemble the global event union against the finalized
size table. -/
def compile_pdls (g : Generator) (inputs : List (String × Protocol)) :
    Except String Output :=
  match genProtocols (registerPhase g inputs) inputs with
  | Except.error e => Except.error e
  | Except.ok (g1, prots) =>
    match drainRefs g1.typeSize g1.refSizes with
    | Except.error e => Except.error e
    | Except.ok table =>
      match generate_event_enums { g1 with typeSize := table, refSizes := [] }
          (inputs.map Prod.snd) with
      | Except.error e => Except.error e
      | Except.ok events =>
        Except.ok { protocols := prots, typeSize := table, events := events }

/-! ## Size-table key footprint

An over-approximation of the size-table keys a single datatype's
generation can ever write (its struct ident, its `Returns` ident, its
bare-enum key, and every hoisted-enum key), used to state when two
datatypes cannot interfere in the shared, unqualified-name-keyed size
table. -/

/-- The hoisted-enum size-table keys arising from a parameter list. -/
def subenumKeysOf (parentName : String) (ps : List Param) : List String :=
  (ps.filter (fun p =>
    match p.type with
    | PType.enum _ => true
    | _ => false)).map
    (fun p => toCamelCase (lastSegment (subenum_name parentName p.name)))

/-- The extra hoisted-enum keys of a command's returns list. -/
def dtReturnsKeys : DomainDatatype → List String
  | DomainDatatype.command c => subenumKeysOf c.name c.returns
  | _ => []

/-- Every size-table key that generating `dt` can write (an
over-approximation independent of the active filters). -/
def dtKeys (dt : DomainDatatype) : List String :=
  toCamelCase (lastSegment dt.name) :: dt.identName :: (dt.identName ++ "Returns") ::
    (subenumKeysOf dt.name dt.params ++ dtReturnsKeys dt)

/-! ## Concrete protocols used to instantiate the theorems -/

def mkStrParam (n : String) : Param :=
  { name := n, description := Option.none, optional := false, deprecated := false
    experimental := false, type := PType.string }

def mkOptStrParam (n : String) : Param :=
  { name := n, description := Option.none, optional := true, deprecated := false
    experimental := false, type := PType.string }

def mkBoolParam (n : String) : Param :=
  { name := n, description := Option.none, optional := false, deprecated := false
    experimental := false, type := PType.boolean }

def mkIntParam (n : String) : Param :=
  { name := n, description := Option.none, optional := false, deprecated := false
    experimental := false, type := PType.integer }

/-- An event of tracked size `8 * 24 + 7 * 1 = 199`. -/
def evSmall : Event :=
  { name := "small", description := Option.none, deprecated := false
    experimental := false
    params := [mkStrParam "a1", mkStrParam "a2", mkStrParam "a3", mkStrParam "a4",
               mkStrParam "a5", mkStrParam "a6", mkStrParam "a7", mkStrParam "a8",
               mkBoolParam "b1", mkBoolParam "b2", mkBoolParam "b3", mkBoolParam "b4",
               mkBoolParam "b5", mkBoolParam "b6", mkBoolParam "b7"] }

/-- An event of tracked size `8 * 24 + 8 = 200`. -/
def evBig : Event :=
  { name := "big", description := Option.none, deprecated := false
    experimental := false
    params := [mkStrParam "a1", mkStrParam "a2", mkStrParam "a3", mkStrParam "a4",
               mkStrParam "a5", mkStrParam "a6", mkStrParam "a7", mkStrParam "a8",
               mkIntParam "c1"] }

def pageDomain : Domain :=
  { name := "Page", description := Option.none, deprecated := false
    experimental := false
    datatypes := [DomainDatatype.event evSmall, DomainDatatype.event evBig] }

def protoEvents : Protocol :=
  { version := { major := "1", minor := "3" }, domains := [pageDomain] }

def outEvents : Output :=
  (compile_pdls Generator.default [("browser_protocol", protoEvents)]).toOption.getD
    emptyOutput

def vSmall : EventVariant :=
  { varIdent := "PageSmall", docMod := "browser_protocol", domainMod := "page"
    tyIdent := "Small", boxed := false }

def vBig : EventVariant :=
  { varIdent := "PageBig", docMod := "browser_protocol", domainMod := "page"
    tyIdent := "Big", boxed := true }

/-- A parameterless event whose camel-cased name collides with a later
datatype's ident. -/
def evThing : Event :=
  { name := "thing", description := Option.none, deprecated := false
    experimental := false, params := [] }

/-- A datatype named `Thing` with nine string fields (size `216`). -/
def tdThing : TypeDef :=
  { name := "Thing", description := Option.none, deprecated := false
    experimental := false, extendsTy := PType.object
    item := some (TypeItem.properties
      [mkStrParam "a1", mkStrParam "a2", mkStrParam "a3", mkStrParam "a4",
       mkStrParam "a5", mkStrParam "a6", mkStrParam "a7", mkStrParam "a8",
       mkStrParam "a9"]) }

def domAlpha : Domain :=
  { name := "Alpha", description := Option.none, deprecated := false
    experimental := false, datatypes := [DomainDatatype.event evThing] }

def domBeta : Domain :=
  { name := "Beta", description := Option.none, deprecated := false
    experimental := false, datatypes := [DomainDatatype.type tdThing] }

def protoCol : Protocol :=
  { version := { major := "1", minor := "0" }, domains := [domAlpha, domBeta] }

def colOut : Output :=
  (compile_pdls Generator.default [("p", protoCol)]).toOption.getD emptyOutput

def vThing : EventVariant :=
  { varIdent := "AlphaThing", docMod := "p", domainMod := "alpha"
    tyIdent := "Thing", boxed := true }

/-- A parameterless event whose name collides with nothing. -/
def evPing : Event :=
  { name := "ping", description := Option.none, deprecated := false
    experimental := false, params := [] }

def tdOther : TypeDef :=
  { name := "Other", description := Option.none, deprecated := false
    experimental := false, extendsTy := PType.object
    item := some (TypeItem.properties [mkIntParam "n"]) }

def domGamma : Domain :=
  { name := "Gamma", description := Option.none, deprecated := false
    experimental := false
    datatypes := [DomainDatatype.event evPing, DomainDatatype.type tdOther] }

def protoPing : Protocol :=
  { version := { major := "1", minor := "0" }, domains := [domGamma] }

def pingOut : Output :=
  (compile_pdls Generator.default [("p", protoPing)]).toOption.getD emptyOutput

/-- The recursive `type Node { Node child }` scenario. -/
def childParam : Param :=
  { name := "child", description := Option.none, optional := false
    deprecated := false, experimental := false, type := PType.ref "Node" }

def nodeTd : TypeDef :=
  { name := "Node", description := Option.none, deprecated := false
    experimental := false, extendsTy := PType.object
    item := some (TypeItem.properties [childParam]) }

def nodeDt : DomainDatatype := DomainDatatype.type nodeTd

def nodeDomain : Domain :=
  { name := "Dom", description := Option.none, deprecated := false
    experimental := false, datatypes := [nodeDt] }

/-- Projections out of a `genFields` result, for stating concrete
instantiations. -/
def gfGen (r : Except String (Generator × List FieldDef × List EnumOut)) :
    Generator :=
  match r with
  | Except.ok (gg, _, _) => gg
  | Except.error _ => Generator.default

def gfFields (r : Except String (Generator × List FieldDef × List EnumOut)) :
    List FieldDef :=
  match r with
  | Except.ok (_, fs, _) => fs
  | Except.error _ => []

def gfEnums (r : Except String (Generator × List FieldDef × List EnumOut)) :
    List EnumOut :=
  match r with
  | Except.ok (_, _, es) => es
  | Except.error _ => []

def c2Res : Except String (Generator × List FieldDef × List EnumOut) :=
  genFields Generator.default nodeDomain nodeDt "Node" [childParam]

/-- Projections out of a `generate_struct` result. -/
def emptyStructOut : StructOut :=
  { ident := "", fields := [], hoisted := [], wrapper := Option.none
    hashEq := false, asRefStr := false, emptyMarker := false
    builder := Option.none }

def structOutOf (r : Except String (Generator × StructOut)) : StructOut :=
  match r with
  | Except.ok (_, o) => o
  | Except.error _ => emptyStructOut

def structGenOf (r : Except String (Generator × StructOut)) : Generator :=
  match r with
  | Except.ok (gg, _) => gg
  | Except.error _ => Generator.default

/-- A domain with no datatypes, for calls that only need a name. -/
def anyDomain : Domain :=
  { name := "Any", description := Option.none, deprecated := false
    experimental := false, datatypes := [] }

/-- Cross-document reference scenario: `doc_a` defines `DomOne.Widget`;
`doc_b`'s `DomTwo` refers to it, and `doc_b`'s `DomThree` refers to
`DomTwo`. -/
def tdWidget : TypeDef :=
  { name := "Widget", description := Option.none, deprecated := false
    experimental := false, extendsTy := PType.string, item := Option.none }

def domD1 : Domain :=
  { name := "DomOne", description := Option.none, deprecated := false
    experimental := false, datatypes := [DomainDatatype.type tdWidget] }

def refParamW : Param :=
  { name := "w", description := Option.none, optional := false
    deprecated := false, experimental := false
    type := PType.ref "DomOne.Widget" }

def tdHolder : TypeDef :=
  { name := "Holder", description := Option.none, deprecated := false
    experimental := false, extendsTy := PType.object
    item := some (TypeItem.properties [refParamW]) }

def domD2 : Domain :=
  { name := "DomTwo", description := Option.none, deprecated := false
    experimental := false, datatypes := [DomainDatatype.type tdHolder] }

def domD3 : Domain :=
  { name := "DomThree", description := Option.none, deprecated := false
    experimental := false, datatypes := [] }

def protoA : Protocol :=
  { version := { major := "1", minor := "0" }, domains := [domD1] }

def protoB : Protocol :=
  { version := { major := "1", minor := "0" }, domains := [domD2, domD3] }

def gReg : Generator :=
  registerPhase Generator.default [("doc_a", protoA), ("doc_b", protoB)]

/-- A datatype whose field references a type that no input defines. -/
def refParamMissing : Param :=
  { name := "w", description := Option.none, optional := false
    deprecated := false, experimental := false, type := PType.ref "Missing" }

def tdBroken : TypeDef :=
  { name := "Broken", description := Option.none, deprecated := false
    experimental := false, extendsTy := PType.object
    item := some (TypeItem.properties [refParamMissing]) }

def domBroken : Domain :=
  { name := "Delta", description := Option.none, deprecated := false
    experimental := false, datatypes := [DomainDatatype.type tdBroken] }

def protoBroken : Protocol :=
  { version := { major := "1", minor := "0" }, domains := [domBroken] }

/-- Enum variant lists for the string round-trip claim. -/
def varRed : Variant := { name := "red", description := Option.none }
def varGreen : Variant := { name := "green", description := Option.none }

/-- An event with one (string) field, for the builder claim. -/
def evClicked : Event :=
  { name := "clicked", description := Option.none, deprecated := false
    experimental := false, params := [mkStrParam "target"] }

def c6Res : Except String (Generator × StructOut) :=
  generate_struct Generator.default anyDomain (DomainDatatype.event evClicked)
    "Clicked" [mkStrParam "target"]

/-- A command with one mandatory and one optional field. -/
def cmdNavigate : Command :=
  { name := "navigate", description := Option.none, deprecated := false
    experimental := false
    params := [mkStrParam "url", mkOptStrParam "referrer"], returns := [] }

def c6CmdRes : Except String (Generator × StructOut) :=
  generate_struct Generator.default anyDomain (DomainDatatype.command cmdNavigate)
    "Navigate" [mkStrParam "url", mkOptStrParam "referrer"]

/-- `type Bar extends integer` (no fields). -/
def tdBarInt : TypeDef :=
  { name := "Bar", description := Option.none, deprecated := false
    experimental := false, extendsTy := PType.integer, item := Option.none }

/-- `type Sid extends string` (no fields). -/
def tdSid : TypeDef :=
  { name := "Sid", description := Option.none, deprecated := false
    experimental := false, extendsTy := PType.string, item := Option.none }

/-- An event with no parameters at all. -/
def evEmpty : Event :=
  { name := "empty", description := Option.none, deprecated := false
    experimental := false, params := [] }

def c7IntRes : Except String (Generator × StructOut) :=
  generate_struct Generator.default anyDomain (DomainDatatype.type tdBarInt)
    "Bar" []

def c7StrRes : Except String (Generator × StructOut) :=
  generate_struct Generator.default anyDomain (DomainDatatype.type tdSid)
    "Sid" []

def c7EvRes : Except String (Generator × StructOut) :=
  generate_struct Generator.default anyDomain (DomainDatatype.event evEmpty)
    "Empty" []

/-- A mixed-flag input for the filter claim: one plain, one deprecated
and one experimental event, plus a deprecated domain. -/
def evOkay : Event :=
  { name := "okay", description := Option.none, deprecated := false
    experimental := false, params := [] }

def evDep : Event :=
  { name := "dep", description := Option.none, deprecated := true
    experimental := false, params := [] }

def evExp : Event :=
  { name := "exp", description := Option.none, deprecated := false
    experimental := true, params := [] }

def pDep : Param :=
  { name := "old", description := Option.none, optional := false
    deprecated := true, experimental := false, type := PType.integer }

def evMixParams : Event :=
  { name := "mixed", description := Option.none, deprecated := false
    experimental := false, params := [mkIntParam "keep", pDep] }

def domMix : Domain :=
  { name := "Mix", description := Option.none, deprecated := false
    experimental := false
    datatypes := [DomainDatatype.event evOkay, DomainDatatype.event evDep,
      DomainDatatype.event evExp, DomainDatatype.event evMixParams] }

def domDead : Domain :=
  { name := "Dead", description := Option.none, deprecated := true
    experimental := false, datatypes := [DomainDatatype.event evOkay] }

def protoMix : Protocol :=
  { version := { major := "1", minor := "0" }, domains := [domMix, domDead] }

/-- Projections out of a `genProtocols` result. -/
def gpGen (r : Except String (Generator × List (String × List DomainOut))) :
    Generator :=
  match r with
  | Except.ok (gg, _) => gg
  | Except.error _ => Generator.default

def gpOuts (r : Except String (Generator × List (String × List DomainOut))) :
    List (String × List DomainOut) :=
  match r with
  | Except.ok (_, o) => o
  | Except.error _ => []

/-- Projections out of a `genDomains` result. -/
def gdGen (r : Except String (Generator × List DomainOut)) : Generator :=
  match r with
  | Except.ok (gg, _) => gg
  | Except.error _ => Generator.default

def gdOuts (r : Except String (Generator × List DomainOut)) : List DomainOut :=
  match r with
  | Except.ok (_, o) => o
  | Except.error _ => []

/-- Projections out of a `generate_type` result. -/
def emptyTypeOut : TypeOut :=
  { dtName := "", bareEnum := Option.none, main := Option.none
    returns := Option.none }

def gtGen (r : Except String (Generator × TypeOut)) : Generator :=
  match r with
  | Except.ok (gg, _) => gg
  | Except.error _ => Generator.default

def gtOut (r : Except String (Generator × TypeOut)) : TypeOut :=
  match r with
  | Except.ok (_, o) => o
  | Except.error _ => emptyTypeOut

/-- Projection out of an event-list result. -/
def evsOf (r : Except String (List EventVariant)) : List EventVariant :=
  match r with
  | Except.ok vs => vs
  | Except.error _ => []

/-- The post-generation generator state for the mixed-flag input. -/
def mixG1 : Generator :=
  gpGen (genProtocols (registerPhase Generator.default [("p", protoMix)])
    [("p", protoMix)])

/-! ## Association map lemmas -/

theorem alookup_aset_self {α : Type} (m : List (String × α)) (k : String) (v : α) :
    alookup (aset m k v) k = some v := by
  simp [alookup, aset]

theorem find?_filter_of_imp {α : Type} (l : List α) (p q : α → Bool)
    (h : ∀ x, p x = true → q x = true) :
    (l.filter q).find? p = l.find? p := by
  induction l with
  | nil => rfl
  | cons a l ih =>
    by_cases hq : q a = true
    · by_cases hp : p a = true
      · simp [List.filter, hq, List.find?, hp]
      · simp only [Bool.not_eq_true] at hp
        simp [List.filter, hq, List.find?, hp, ih]
    · have hp : p a = false := by
        cases hpa : p a
        · rfl
        · exact absurd (h a hpa) hq
      simp only [Bool.not_eq_true] at hq
      simp [List.filter, hq, List.find?, hp, ih]

theorem alookup_aset_ne {α : Type} (m : List (String × α)) (k k' : String) (v : α)
    (h : k' ≠ k) : alookup (aset m k v) k' = alookup m k' := by
  simp only [alookup, aset, List.find?]
  have hk : ((k, v).1 == k') = false := by
    simp [Ne.symm h]
  simp only [hk]
  rw [find?_filter_of_imp]
  intro x hx
  simp only [beq_iff_eq] at hx
  simp [hx, h]

theorem alookup_aadd_self (m : List (String × Nat)) (k : String) (v : Nat) :
    alookup (aadd m k v) k = some ((alookup m k).getD 0 + v) := by
  unfold aadd
  cases h : alookup m k with
  | none => simp [alookup_aset_self]
  | some s => simp [alookup_aset_self]

theorem alookup_aadd_ne (m : List (String × Nat)) (k k' : String) (v : Nat)
    (h : k' ≠ k) : alookup (aadd m k v) k' = alookup m k' := by
  unfold aadd
  cases alookup m k with
  | none => exact alookup_aset_ne m k k' v h
  | some s => exact alookup_aset_ne m k k' _ h

/-! ## Configuration preservation

Generation mutates only `typeSize` and `refSizes`; every other
`Generator` field is configuration fixed for the run.
-/

/-- The immutable-during-generation part of the generator. -/
def Generator.config (g : Generator) :=
  (g.serdeSupport, g.withExperimental, g.withDeprecated, g.protocolMods,
    g.domains, g.targetMod)

theorem store_size_config (g : Generator) (ty : String) (s : SizeOrRef) :
    (store_size g ty s).config = g.config := by
  cases s <;> rfl

theorem generate_enum_config (g : Generator) (ident : Variant)
    (vs : List Variant) : (generate_enum g ident vs).1.config = g.config := rfl

theorem hoistEnum_config (g : Generator) (dt : DomainDatatype) (p : Param) :
    (hoistEnum g dt p).1.config = g.config := by
  unfold hoistEnum
  cases p.type <;> rfl

theorem genFields_config (domain : Domain) (dt : DomainDatatype)
    (structIdent : String) (ps : List Param) :
    ∀ (g g' : Generator) (fs : List FieldDef) (es : List EnumOut),
      genFields g domain dt structIdent ps = Except.ok (g', fs, es) →
      g'.config = g.config := by
  induction ps with
  | nil =>
    intro g g' fs es h
    simp only [genFields] at h
    cases h
    rfl
  | cons p ps ih =>
    intro g g' fs es h
    rw [genFields] at h
    split at h
    · cases h
    next ty sz _ =>
      split at h
      · cases h
      next g2 fs2 es2 hrec =>
        cases h
        exact (ih _ _ _ _ hrec).trans
          ((store_size_config _ _ _).trans (hoistEnum_config g dt p))

theorem generate_struct_config (g : Generator) (domain : Domain)
    (dt : DomainDatatype) (structIdent : String) (params : List Param)
    (g' : Generator) (out : StructOut)
    (h : generate_struct g domain dt structIdent params = Except.ok (g', out)) :
    g'.config = g.config := by
  rw [generate_struct] at h
  split at h
  · cases h
  next g1 fields hoisted hfs =>
    have hcfg1 : g1.config = g.config := genFields_config domain dt structIdent params g g1 fields hoisted hfs
    split at h
    · split at h
      · split at h
        · cases h
        next _ _ hft =>
          cases h
          exact (store_size_config _ _ _).trans hcfg1
      · cases h
        exact hcfg1
    · cases h
      exact hcfg1

theorem generate_type_config (g : Generator) (domain : Domain)
    (dt : DomainDatatype) (g' : Generator) (out : TypeOut)
    (h : generate_type g domain dt = Except.ok (g', out)) :
    g'.config = g.config := by
  rw [generate_type] at h
  split at h
  · cases h
    exact generate_enum_config _ _ _
  · split at h
    · cases h
    next g1 main hmain =>
      have h1 : g1.config = g.config := generate_struct_config _ _ _ _ _ _ _ hmain
      split at h
      next c =>
        split at h
        · cases h
        next g2 ret hret =>
          cases h
          exact (generate_struct_config _ _ _ _ _ _ _ hret).trans h1
      · cases h
        exact h1

theorem genDatatypes_config (domain : Domain) (dts : List DomainDatatype) :
    ∀ (g g' : Generator) (ts : List TypeOut),
      genDatatypes g domain dts = Except.ok (g', ts) → g'.config = g.config := by
  induction dts with
  | nil =>
    intro g g' ts h
    simp only [genDatatypes] at h
    cases h
    rfl
  | cons dt rest ih =>
    intro g g' ts h
    rw [genDatatypes] at h
    split at h
    · split at h
      · cases h
      next g1 t hty =>
        split at h
        · cases h
        next g2 ts2 hrec =>
          cases h
          exact (ih _ _ _ hrec).trans (generate_type_config _ _ _ _ _ hty)
    · exact ih _ _ _ h

theorem genDomains_config (ds : List Domain) :
    ∀ (g g' : Generator) (outs : List DomainOut),
      genDomains g ds = Except.ok (g', outs) → g'.config = g.config := by
  induction ds with
  | nil =>
    intro g g' outs h
    simp only [genDomains] at h
    cases h
    rfl
  | cons d rest ih =>
    intro g g' outs h
    rw [genDomains] at h
    split at h
    · split at h
      · cases h
      next g1 items hdom =>
        split at h
        · cases h
        next g2 ds2 hrec =>
          cases h
          exact (ih _ _ _ hrec).trans (genDatatypes_config _ _ _ _ _ hdom)
    · exact ih _ _ _ h

theorem genProtocols_config (inputs : List (String × Protocol)) :
    ∀ (g g' : Generator) (outs : List (String × List DomainOut)),
      genProtocols g inputs = Except.ok (g', outs) → g'.config = g.config := by
  induction inputs with
  | nil =>
    intro g g' outs h
    simp only [genProtocols] at h
    cases h
    rfl
  | cons i rest ih =>
    intro g g' outs h
    obtain ⟨modName, p⟩ := i
    rw [genProtocols] at h
    split at h
    · cases h
    next g1 ds hdoc =>
      split at h
      · cases h
      next g2 ps hrec =>
        cases h
        exact (ih _ _ _ hrec).trans (genDomains_config _ _ _ _ hdoc)

/-- Unpacking of `Generator.config` equality into the component fields
used by the resolution functions. -/
theorem config_eq_fields {g g' : Generator} (h : g'.config = g.config) :
    g'.domains = g.domains ∧ g'.protocolMods = g.protocolMods ∧
      g'.withDeprecated = g.withDeprecated ∧
      g'.withExperimental = g.withExperimental := by
  simp only [Generator.config, Prod.mk.injEq] at h
  exact ⟨h.2.2.2.2.1, h.2.2.2.1, h.2.2.1, h.2.1⟩

/-- `projected_type` reads only the domain registration map and the
document module names. -/
theorem projected_type_congr {g g' : Generator} (domain : Domain) (name : String)
    (hd : g'.domains = g.domains) (hm : g'.protocolMods = g.protocolMods) :
    projected_type g' domain name = projected_type g domain name := by
  unfold projected_type
  rw [hd, hm]

/-- `generate_field_type` reads only the domain registration map and the
document module names. -/
theorem generate_field_type_congr {g g' : Generator} (domain : Domain)
    (parent paramName : String) (t : PType)
    (hd : g'.domains = g.domains) (hm : g'.protocolMods = g.protocolMods) :
    generate_field_type g' domain parent paramName t =
      generate_field_type g domain parent paramName t := by
  induction t with
  | enum vs => rfl
  | arrayOf t iht =>
    cases t with
    | ref name =>
      simp only [generate_field_type]
      rw [projected_type_congr domain name hd hm]
    | arrayOf t2 =>
      simp only [generate_field_type] at iht ⊢
      rw [iht]
    | integer => rfl
    | number => rfl
    | boolean => rfl
    | string => rfl
    | object => rfl
    | any => rfl
    | binary => rfl
    | enum vs => rfl
  | ref name =>
    simp only [generate_field_type]
    rw [projected_type_congr domain name hd hm]
  | integer => rfl
  | number => rfl
  | boolean => rfl
  | string => rfl
  | object => rfl
  | any => rfl
  | binary => rfl

/-! ## Field-list correspondence -/

/-- Each generated field corresponds positionally to its parameter: its
name, optionality and deprecation are the parameter's, and its emitted
type is the parameter's resolved field type. -/
theorem genFields_forall₂ (domain : Domain) (dt : DomainDatatype)
    (structIdent : String) (ps : List Param) :
    ∀ (g g' : Generator) (fs : List FieldDef) (es : List EnumOut),
      genFields g domain dt structIdent ps = Except.ok (g', fs, es) →
      List.Forall₂ (fun (p : Param) (f : FieldDef) =>
        f.name = field_name p.name ∧ f.optional = p.optional ∧
          f.deprecated = p.deprecated ∧
          ∃ sz, generate_field_type g domain dt.name p.name p.type =
            Except.ok (f.ty, sz)) ps fs := by
  induction ps with
  | nil =>
    intro g g' fs es h
    simp only [genFields] at h
    cases h
    exact List.Forall₂.nil
  | cons p ps ih =>
    intro g g' fs es h
    rw [genFields] at h
    split at h
    · cases h
    next ty sz hft =>
      split at h
      · cases h
      next g2 fs2 es2 hrec =>
        cases h
        constructor
        · refine ⟨rfl, rfl, rfl, sz, ?_⟩
          have hc := config_eq_fields (hoistEnum_config g dt p)
          rw [← generate_field_type_congr domain dt.name p.name p.type hc.1 hc.2.1]
          exact hft
        · have hcfg : (store_size (hoistEnum g dt p).1 structIdent sz).config
              = g.config :=
            (store_size_config _ _ _).trans (hoistEnum_config g dt p)
          have hc := config_eq_fields hcfg
          refine (ih _ _ _ _ hrec).imp ?_
          intro p' f' hpf
          obtain ⟨h1, h2, h3, sz', h4⟩ := hpf
          refine ⟨h1, h2, h3, sz', ?_⟩
          rw [← generate_field_type_congr domain dt.name p'.name p'.type hc.1 hc.2.1]
          exact h4

/-! ## C2: self-referential refs are boxed -/

/-- C2: a `Ref` whose name equals the enclosing datatype's own name is
emitted behind exactly one level of `Box` (never inlined), contributing
the fixed pointer size `size_of::<Box<()>>() = 8`; and in a full
parameter list every such self-referential field's emitted type is that
box, however many of them there are. -/
theorem claim_c2 :
    (∀ (g : Generator) (domain : Domain) (paramName parent : String),
      generate_field_type g domain parent paramName (PType.ref parent) =
        Except.ok (RustTy.box (RustTy.path (TyPath.name (toCamelCase parent))),
          SizeOrRef.size USIZE_BOX)) ∧
    USIZE_BOX = 8 ∧
    (∀ (g : Generator) (domain : Domain) (dt : DomainDatatype)
        (structIdent : String) (ps : List Param) (g' : Generator)
        (fs : List FieldDef) (es : List EnumOut),
      genFields g domain dt structIdent ps = Except.ok (g', fs, es) →
      List.Forall₂ (fun (p : Param) (f : FieldDef) =>
        p.type = PType.ref dt.name →
        f.ty = RustTy.box (RustTy.path (TyPath.name (toCamelCase dt.name)))) ps fs) := by
  refine ⟨?_, rfl, ?_⟩
  · intro g domain paramName parent
    simp [generate_field_type]
  · intro g domain dt structIdent ps g' fs es h
    refine (genFields_forall₂ domain dt structIdent ps g g' fs es h).imp ?_
    intro p f hpf hself
    obtain ⟨_, _, _, sz, hft⟩ := hpf
    rw [hself] at hft
    simp [generate_field_type] at hft
    exact hft.1.symm

/-- Witness for C2 on the `type Node { Node child }` scenario. -/
theorem claim_c2_witness :
    generate_field_type Generator.default nodeDomain "Node" "child"
        (PType.ref "Node") =
      Except.ok (RustTy.box (RustTy.path (TyPath.name "Node")),
        SizeOrRef.size USIZE_BOX) ∧
    List.Forall₂ (fun (p : Param) (f : FieldDef) =>
      p.type = PType.ref nodeDt.name →
      f.ty = RustTy.box (RustTy.path (TyPath.name (toCamelCase nodeDt.name))))
      [childParam] (gfFields c2Res) := by
  constructor
  · exact claim_c2.1 Generator.default nodeDomain "child" "Node"
  · exact claim_c2.2.2 Generator.default nodeDomain nodeDt "Node" [childParam]
      (gfGen c2Res) (gfFields c2Res) (gfEnums c2Res) (by rfl)

/-! ## C4: cross-document path projection -/

/-- C4: an unqualified `Ref` resolves to a bare local type name; a
domain-qualified `Ref` resolves one level up to the sibling domain
module when the current and referenced domains were registered from the
same input document, and additionally traverses into the referenced
document's top-level module exactly when the owning-document indices
differ. -/
theorem claim_c4 :
    (∀ (g : Generator) (domain : Domain) (name : String),
      pathQualifier name = "" →
      projected_type g domain name =
        Except.ok (TyPath.name (toCamelCase (lastSegment name)))) ∧
    (∀ (g : Generator) (domain : Domain) (name : String) (i j : Nat),
      pathQualifier name ≠ "" →
      alookup g.domains domain.name = some i →
      alookup g.domains (pathQualifier name) = some j →
      projected_type g domain name =
        Except.ok (if i = j then
          TyPath.sibling (toSnakeCase (pathQualifier name))
            (toCamelCase (lastSegment name))
        else
          TyPath.crossDoc (g.protocolMods.getD j "")
            (toSnakeCase (pathQualifier name))
            (toCamelCase (lastSegment name)))) ∧
    (∀ (g : Generator) (domain : Domain) (name : String) (i j : Nat) (p : TyPath),
      pathQualifier name ≠ "" →
      alookup g.domains domain.name = some i →
      alookup g.domains (pathQualifier name) = some j →
      projected_type g domain name = Except.ok p →
      (p.hasDocSegment = true ↔ i ≠ j)) := by
  have main : ∀ (g : Generator) (domain : Domain) (name : String) (i j : Nat),
      pathQualifier name ≠ "" →
      alookup g.domains domain.name = some i →
      alookup g.domains (pathQualifier name) = some j →
      projected_type g domain name =
        Except.ok (if i = j then
          TyPath.sibling (toSnakeCase (pathQualifier name))
            (toCamelCase (lastSegment name))
        else
          TyPath.crossDoc (g.protocolMods.getD j "")
            (toSnakeCase (pathQualifier name))
            (toCamelCase (lastSegment name))) := by
    intro g domain name i j hq hc hr
    have hqb : (pathQualifier name == "") = false := by
      simp [hq]
    simp only [projected_type, hqb, Bool.false_eq_true, if_false, hc, hr]
    by_cases hij : i = j
    · simp [hij]
    · have : (i == j) = false := by simp [hij]
      simp [this, hij]
  refine ⟨?_, main, ?_⟩
  · intro g domain name hq
    simp [projected_type, hq]
  · intro g domain name i j p hq hc hr hp
    rw [main g domain name i j hq hc hr] at hp
    by_cases hij : i = j
    · rw [if_pos hij] at hp
      cases hp
      simp [TyPath.hasDocSegment, hij]
    · rw [if_neg hij] at hp
      cases hp
      simp [TyPath.hasDocSegment, hij]

/-- Witness for C4: with two registered documents, `DomTwo → DomOne.Widget`
crosses documents (index 1 to 0) and gains the `doc_a` segment;
`DomThree → DomTwo.Holder` stays inside `doc_b`; `Widget` stays local. -/
theorem claim_c4_witness :
    projected_type gReg domD2 "Widget" = Except.ok (TyPath.name "Widget") ∧
    projected_type gReg domD2 "DomOne.Widget" =
      Except.ok (TyPath.crossDoc "doc_a" "dom_one" "Widget") ∧
    projected_type gReg domD3 "DomTwo.Holder" =
      Except.ok (TyPath.sibling "dom_two" "Holder") := by
  refine ⟨?_, ?_, ?_⟩
  · exact claim_c4.1 gReg domD2 "Widget" (by decide)
  · exact claim_c4.2.1 gReg domD2 "DomOne.Widget" 1 0 (by decide)
      (by decide) (by decide)
  · exact claim_c4.2.1 gReg domD3 "DomTwo.Holder" 1 1 (by decide)
      (by decide) (by decide)

/-! ## C5: enum string round-trip -/

theorem find?_mem_snd (pairs : List (String × String)) (s : String)
    (h : s ∈ pairs.map Prod.snd) :
    ∃ pr, pairs.find? (fun p => p.2 == s) = some pr ∧ pr.2 = s ∧ pr ∈ pairs := by
  induction pairs with
  | nil => simp at h
  | cons a l ih =>
    by_cases ha : a.2 = s
    · refine ⟨a, ?_, ha, List.mem_cons_self a l⟩
      rw [List.find?_cons_of_pos]
      simp [ha]
    · have h' : s ∈ l.map Prod.snd := by
        simp only [List.map_cons, List.mem_cons] at h
        rcases h with h | h
        · exact absurd h.symm ha
        · exact h
      obtain ⟨pr, h1, h2, h3⟩ := ih h'
      refine ⟨pr, ?_, h2, List.mem_cons_of_mem a h3⟩
      rw [List.find?_cons_of_neg]
      · exact h1
      · simp [ha]

theorem find?_fst_nodup (pairs : List (String × String)) (v s : String)
    (hnd : (pairs.map Prod.fst).Nodup) (hmem : (v, s) ∈ pairs) :
    pairs.find? (fun p => p.1 == v) = some (v, s) := by
  induction pairs with
  | nil => simp at hmem
  | cons a l ih =>
    rw [List.map_cons, List.nodup_cons] at hnd
    rcases List.mem_cons.mp hmem with h | h
    · rw [← h]
      rw [List.find?_cons_of_pos]
      simp [← h]
    · have hne : (a.1 == v) = false := by
        have hv : v ∈ l.map Prod.fst := by
          have := List.mem_map_of_mem Prod.fst h
          simpa using this
        have : a.1 ≠ v := by
          intro hav
          exact hnd.1 (hav ▸ hv)
        simp [this]
      rw [List.find?_cons_of_neg]
      · exact ih hnd.2 h
      · simp [hne]

/-- C5: for the generated enum string functions, a declared wire string
parses to a variant that prints back to the identical string (the
variant idents being distinct, as the Rust compiler requires of any
emitted enum), and an unrecognized string errors with exactly that
string as payload. -/
theorem claim_c5 (variants : List Variant) (s : String)
    (hnd : ((generate_enum_str_fns variants).map Prod.fst).Nodup) :
    (s ∈ (generate_enum_str_fns variants).map Prod.snd →
      ∃ v, enumFromStr (generate_enum_str_fns variants) s = Except.ok v ∧
        enumAsStr (generate_enum_str_fns variants) v = some s) ∧
    (s ∉ (generate_enum_str_fns variants).map Prod.snd →
      enumFromStr (generate_enum_str_fns variants) s = Except.error s) := by
  constructor
  · intro hmem
    obtain ⟨pr, h1, h2, h3⟩ := find?_mem_snd _ s hmem
    refine ⟨pr.1, ?_, ?_⟩
    · rw [enumFromStr, h1]
    · have hpr : (pr.1, s) ∈ generate_enum_str_fns variants := by
        rw [← h2]
        exact h3
      rw [enumAsStr, find?_fst_nodup _ pr.1 s hnd hpr]
      rfl
  · intro hmem
    rw [enumFromStr]
    have : (generate_enum_str_fns variants).find? (fun p => p.2 == s) = none := by
      rw [List.find?_eq_none]
      intro x hx
      simp only [beq_iff_eq]
      intro hxs
      exact hmem (hxs ▸ List.mem_map_of_mem Prod.snd hx)
    rw [this]

/-- Witness for C5 on the variant set `{red, green}`: `"red"` round-trips
and `"blue"` is rejected carrying `"blue"`. -/
theorem claim_c5_witness :
    (∃ v, enumFromStr (generate_enum_str_fns [varRed, varGreen]) "red" =
        Except.ok v ∧
      enumAsStr (generate_enum_str_fns [varRed, varGreen]) v = some "red") ∧
    enumFromStr (generate_enum_str_fns [varRed, varGreen]) "blue" =
      Except.error "blue" := by
  constructor
  · exact (claim_c5 [varRed, varGreen] "red" (by decide)).1 (by decide)
  · exact (claim_c5 [varRed, varGreen] "blue" (by decide)).2 (by decide)

/-! ## C9: deferred keys drop the qualifier -/

/-- C9: a non-self-referential `Ref`'s deferred size dependency records
only the camel-cased final path segment of the referenced name,
dropping any domain qualifier; hence any two qualified names with the
same local name produce the same key, datatype size-table idents are
domain-independent, and the fix-up lookup is keyed by that bare string. -/
theorem claim_c9 :
    (∀ (g : Generator) (domain : Domain) (parent paramName name : String)
        (p : TyPath),
      (name == parent) = false →
      projected_type g domain name = Except.ok p →
      generate_field_type g domain parent paramName (PType.ref name) =
        Except.ok (RustTy.path p, SizeOrRef.ref (deferredRefKey name))) ∧
    (∀ name, deferredRefKey name = toCamelCase (lastSegment name)) ∧
    (∀ q1 q2, lastSegment q1 = lastSegment q2 →
      deferredRefKey q1 = deferredRefKey q2) ∧
    (∀ (dt1 dt2 : DomainDatatype), dt1.name = dt2.name →
      dt1.identName = dt2.identName) ∧
    (∀ (table : List (String × Nat)) (n reff : String)
        (rest : List (String × String)) (s : Nat),
      alookup table reff = some s →
      drainRefs table ((n, reff) :: rest) = drainRefs (aadd table n s) rest) := by
  refine ⟨?_, fun _ => rfl, ?_, ?_, ?_⟩
  · intro g domain parent paramName name p hne hp
    simp only [generate_field_type, hne]
    rw [hp]
    rfl
  · intro q1 q2 h
    unfold deferredRefKey
    rw [h]
  · intro dt1 dt2 h
    unfold DomainDatatype.identName
    rw [h]
  · intro table n reff rest s h
    rw [drainRefs, h]

/-- Witness for C9: `DomA.Widget` and `DomB.Widget` share the key
`Widget`, under which the fix-up lookup proceeds. -/
theorem claim_c9_witness :
    generate_field_type gReg domD2 "Holder" "w" (PType.ref "DomOne.Widget") =
      Except.ok (RustTy.path (TyPath.crossDoc "doc_a" "dom_one" "Widget"),
        SizeOrRef.ref "Widget") ∧
    deferredRefKey "DomA.Widget" = deferredRefKey "DomB.Widget" ∧
    drainRefs [("Widget", 24)] [("Holder", "Widget")] =
      drainRefs (aadd [("Widget", 24)] "Holder" 24) [] := by
  refine ⟨?_, ?_, ?_⟩
  · exact claim_c9.1 gReg domD2 "Holder" "w" "DomOne.Widget"
      (TyPath.crossDoc "doc_a" "dom_one" "Widget") (by decide) (by rfl)
  · exact claim_c9.2.2.1 "DomA.Widget" "DomB.Widget" (by decide)
  · exact claim_c9.2.2.2.2 [("Widget", 24)] "Holder" "Widget" [] 24 (by decide)

/-! ## C3: the deferred-size worklist and its fix-up pass -/

/-- C3: a non-self-referential `Ref` field defers its size (the
contribution is a `ref` to the target's key, not an inline size) and
`store_size` pushes the `(dependent, reference)` pair onto the worklist
without touching the size table; the fix-up pass drains the worklist
completely, adding each referenced type's already-computed size to the
dependent's running total, errors out on a pair whose reference has no
size-table entry at that point, and such an error makes the whole
compilation halt with it — and that pass runs on the generator state
reached only after every domain of every document has been generated. -/
theorem claim_c3 :
    (∀ (g : Generator) (domain : Domain) (parent paramName name : String)
        (p : TyPath),
      (name == parent) = false →
      projected_type g domain name = Except.ok p →
      generate_field_type g domain parent paramName (PType.ref name) =
        Except.ok (RustTy.path p, SizeOrRef.ref (deferredRefKey name))) ∧
    (∀ (g : Generator) (ty name : String),
      store_size g ty (SizeOrRef.ref name) =
        { g with refSizes := g.refSizes ++ [(ty, name)] }) ∧
    (∀ table, drainRefs table [] = Except.ok table) ∧
    (∀ (table : List (String × Nat)) (n reff : String)
        (rest : List (String × String)),
      alookup table reff = Option.none →
      drainRefs table ((n, reff) :: rest) =
        Except.error ("No type found for ref " ++ reff)) ∧
    (∀ (table : List (String × Nat)) (n reff : String)
        (rest : List (String × String)) (s : Nat),
      alookup table reff = some s →
      drainRefs table ((n, reff) :: rest) = drainRefs (aadd table n s) rest) ∧
    (∀ (g : Generator) (inputs : List (String × Protocol)) (g1 : Generator)
        (prots : List (String × List DomainOut)) (e : String),
      genProtocols (registerPhase g inputs) inputs = Except.ok (g1, prots) →
      drainRefs g1.typeSize g1.refSizes = Except.error e →
      compile_pdls g inputs = Except.error e) := by
  refine ⟨?_, ?_, fun _ => rfl, ?_, ?_, ?_⟩
  · intro g domain parent paramName name p hne hp
    simp only [generate_field_type, hne]
    rw [hp]
    rfl
  · intro g ty name
    rfl
  · intro table n reff rest h
    rw [drainRefs, h]
  · intro table n reff rest s h
    rw [drainRefs, h]
  · intro g inputs g1 prots e hgen hdrain
    simp only [compile_pdls, hgen, hdrain]

/-- Witness for C3: a field `Ref("Missing")` with no defining datatype
makes the whole compilation fail with the fix-up pass's error. -/
theorem claim_c3_witness :
    compile_pdls Generator.default [("p", protoBroken)] =
      Except.error ("No type found for ref " ++ "Missing") := by
  exact claim_c3.2.2.2.2.2 Generator.default [("p", protoBroken)]
    (gpGen (genProtocols (registerPhase Generator.default [("p", protoBroken)])
      [("p", protoBroken)]))
    (gpOuts (genProtocols (registerPhase Generator.default [("p", protoBroken)])
      [("p", protoBroken)]))
    ("No type found for ref " ++ "Missing") (by rfl) (by rfl)

/-! ## C6: builder emission (corrected) -/

/-- Counterexample to C6 as stated: an `Event` with one (post-filter)
field is generated with no builder at all — builder emission is not
"for every datatype with fields", only for commands and typedefs. -/
theorem claim_c6_counterexample :
    generate_struct Generator.default anyDomain (DomainDatatype.event evClicked)
        "Clicked" [mkStrParam "target"] =
      Except.ok (structGenOf c6Res, structOutOf c6Res) ∧
    (structOutOf c6Res).fields.length = 1 ∧
    (structOutOf c6Res).builder = Option.none := by
  exact ⟨rfl, rfl, rfl⟩

/-- C6 (amended): a builder is emitted exactly for datatypes with at
least one post-filter field that are commands or typedefs (never for
events); when emitted it targets the struct, takes every mandatory
field as a constructor argument and exposes one setter per optional
field, the fields corresponding one-to-one to the parameters. -/
theorem claim_c6_amended (g : Generator) (domain : Domain)
    (dt : DomainDatatype) (structIdent : String) (params : List Param)
    (g' : Generator) (out : StructOut)
    (h : generate_struct g domain dt structIdent params = Except.ok (g', out)) :
    (out.builder.isSome = true ↔
      (out.fields ≠ [] ∧ (dt.isCommand || dt.isType) = true)) ∧
    (∀ b, out.builder = some b →
      b.target = structIdent ∧
      b.ctorArgs = (out.fields.filter (fun f => !f.optional)).map FieldDef.name ∧
      b.setters = (out.fields.filter (fun f => f.optional)).map FieldDef.name) ∧
    List.Forall₂ (fun (p : Param) (f : FieldDef) =>
      f.name = field_name p.name ∧ f.optional = p.optional) params out.fields := by
  rw [generate_struct] at h
  split at h
  · cases h
  next g1 fields hoisted hfs =>
    have hforall := genFields_forall₂ domain dt structIdent params g g1 fields
      hoisted hfs
    have hforall' : List.Forall₂ (fun (p : Param) (f : FieldDef) =>
        f.name = field_name p.name ∧ f.optional = p.optional) params fields :=
      hforall.imp (fun _ _ hpf => ⟨hpf.1, hpf.2.1⟩)
    split at h
    next hempty =>
      have hfields : fields = [] := by
        cases fields with
        | nil => rfl
        | cons a l => simp [List.isEmpty] at hempty
      subst hfields
      split at h
      · split at h
        · cases h
        next wty sz hft =>
          cases h
          refine ⟨by simp, ?_, hforall'⟩
          intro b hb
          cases hb
      · cases h
        refine ⟨by simp, ?_, hforall'⟩
        intro b hb
        cases hb
    next hempty =>
      have hfields : fields ≠ [] := by
        cases fields with
        | nil => simp [List.isEmpty] at hempty
        | cons a l => simp
      cases h
      constructor
      · by_cases hk : (dt.isCommand || dt.isType) = true
        · simp [hk, hfields]
        · simp only [Bool.not_eq_true] at hk
          simp [hk, hfields]
      constructor
      · intro b hb
        by_cases hk : (dt.isCommand || dt.isType) = true
        · simp only [hk, if_true] at hb
          cases hb
          exact ⟨rfl, rfl, rfl⟩
        · simp only [Bool.not_eq_true] at hk
          simp [hk] at hb
      · exact hforall'

/-- Witness for the amended C6: a command with one mandatory and one
optional field gets a builder whose constructor takes exactly the
mandatory field and whose setters are exactly the optional one. -/
theorem claim_c6_amended_witness :
    (structOutOf c6CmdRes).builder.isSome = true ∧
    (structOutOf c6CmdRes).builder =
      some { target := "Navigate", ctorArgs := ["url"], setters := ["referrer"] } ∧
    List.Forall₂ (fun (p : Param) (f : FieldDef) =>
      f.name = field_name p.name ∧ f.optional = p.optional)
      [mkStrParam "url", mkOptStrParam "referrer"] (structOutOf c6CmdRes).fields := by
  have h := claim_c6_amended Generator.default anyDomain
    (DomainDatatype.command cmdNavigate) "Navigate"
    [mkStrParam "url", mkOptStrParam "referrer"]
    (structGenOf c6CmdRes) (structOutOf c6CmdRes) (by rfl)
  refine ⟨h.1.mpr ⟨by decide, by decide⟩, by decide, h.2.2⟩

/-! ## C7: zero-field typedefs become wrappers -/

/-- C7: a `TypeDef` with no fields is emitted as a single-field wrapper
over its resolved alias target (never an empty marker), hashable and
equatable exactly when the alias target is an integer or a string, with
an `AsRef<str>` view exactly for strings; a zero-field non-`TypeDef`
datatype instead becomes an empty marker record. -/
theorem claim_c7 :
    (∀ (g : Generator) (domain : Domain) (td : TypeDef) (structIdent : String)
        (g' : Generator) (out : StructOut),
      generate_struct g domain (DomainDatatype.type td) structIdent [] =
        Except.ok (g', out) →
      out.emptyMarker = false ∧
      (∃ wty sz, generate_field_type g domain td.name td.name td.extendsTy =
          Except.ok (wty, sz) ∧ out.wrapper = some wty) ∧
      out.hashEq = (td.extendsTy.isInteger || td.extendsTy.isString) ∧
      out.asRefStr = td.extendsTy.isString) ∧
    (∀ (g : Generator) (domain : Domain) (dt : DomainDatatype)
        (structIdent : String) (g' : Generator) (out : StructOut),
      dt.isType = false →
      generate_struct g domain dt structIdent [] = Except.ok (g', out) →
      out.emptyMarker = true ∧ out.wrapper = Option.none ∧
        alookup g'.typeSize structIdent = some 0) := by
  constructor
  · intro g domain td structIdent g' out h
    have h1 : (match generate_field_type g domain td.name td.name td.extendsTy with
      | Except.error e => (Except.error e : Except String (Generator × StructOut))
      | Except.ok (wty, sz) =>
        Except.ok (store_size g structIdent sz,
          { ident := structIdent
            fields := []
            hoisted := []
            wrapper := some wty
            hashEq := td.extendsTy.isInteger || td.extendsTy.isString
            asRefStr := td.extendsTy.isString
            emptyMarker := false
            builder := Option.none })) = Except.ok (g', out) := h
    split at h1
    · cases h1
    next wty sz hft =>
      cases h1
      exact ⟨rfl, ⟨wty, sz, hft, rfl⟩, rfl, rfl⟩
  · intro g domain dt structIdent g' out hnt h
    cases dt with
    | type td => simp [DomainDatatype.isType] at hnt
    | command c =>
      have h1 : (({ g with typeSize := aset g.typeSize structIdent 0 },
          ({ ident := structIdent, fields := [], hoisted := []
             wrapper := Option.none, hashEq := false, asRefStr := false
             emptyMarker := true, builder := Option.none } : StructOut)) :
          Generator × StructOut) = (g', out) := Except.ok.inj h
      cases h1
      exact ⟨rfl, rfl, alookup_aset_self _ _ _⟩
    | event e =>
      have h1 : (({ g with typeSize := aset g.typeSize structIdent 0 },
          ({ ident := structIdent, fields := [], hoisted := []
             wrapper := Option.none, hashEq := false, asRefStr := false
             emptyMarker := true, builder := Option.none } : StructOut)) :
          Generator × StructOut) = (g', out) := Except.ok.inj h
      cases h1
      exact ⟨rfl, rfl, alookup_aset_self _ _ _⟩

/-- Witness for C7: `type Bar extends integer` gives a hashable wrapper,
`type Sid extends string` additionally views as a string, and a
parameterless event gives an empty marker of recorded size 0. -/
theorem claim_c7_witness :
    ((structOutOf c7IntRes).emptyMarker = false ∧
      (structOutOf c7IntRes).hashEq = true ∧
      (structOutOf c7IntRes).asRefStr = false) ∧
    ((structOutOf c7StrRes).hashEq = true ∧
      (structOutOf c7StrRes).asRefStr = true) ∧
    ((structOutOf c7EvRes).emptyMarker = true ∧
      alookup (structGenOf c7EvRes).typeSize "Empty" = some 0) := by
  have h1 := claim_c7.1 Generator.default anyDomain tdBarInt "Bar"
    (structGenOf c7IntRes) (structOutOf c7IntRes) (by rfl)
  have h2 := claim_c7.1 Generator.default anyDomain tdSid "Sid"
    (structGenOf c7StrRes) (structOutOf c7StrRes) (by rfl)
  have h3 := claim_c7.2 Generator.default anyDomain (DomainDatatype.event evEmpty)
    "Empty" (structGenOf c7EvRes) (structOutOf c7EvRes) (by decide) (by rfl)
  exact ⟨⟨h1.1, h1.2.2.1, h1.2.2.2⟩, ⟨h2.2.2.1, h2.2.2.2⟩, ⟨h3.1, h3.2.2⟩⟩

/-! ## Event-variant characterization -/

/-- `mkEventVariant` succeeds exactly by looking up the domain index and
the event type's finalized size, and boxes at sizes of 200 and above. -/
theorem mkEventVariant_char (g : Generator) (domain : Domain)
    (dt : DomainDatatype) (v : EventVariant)
    (h : mkEventVariant g domain dt = Except.ok v) :
    ∃ idx size, alookup g.domains domain.name = some idx ∧
      alookup g.typeSize dt.identName = some size ∧
      v = { varIdent := toCamelCase domain.name ++ toCamelCase dt.name
            docMod := g.protocolMods.getD idx ""
            domainMod := toSnakeCase domain.name
            tyIdent := dt.identName
            boxed := if size < 200 then false else true } := by
  rw [mkEventVariant] at h
  split at h
  · cases h
  next idx hidx =>
    split at h
    · cases h
    next size hsize =>
      cases h
      exact ⟨idx, size, hidx, hsize, rfl⟩

/-- Every variant produced by the per-domain event loop carries a size
that is in the table under its type ident, and is boxed exactly at 200
and above. -/
theorem genEventsDts_boxed (g : Generator) (domain : Domain)
    (dts : List DomainDatatype) :
    ∀ (vs : List EventVariant), genEventsDts g domain dts = Except.ok vs →
      ∀ v ∈ vs, ∃ size, alookup g.typeSize v.tyIdent = some size ∧
        v.boxed = (if size < 200 then false else true) := by
  induction dts with
  | nil =>
    intro vs h v hv
    simp only [genEventsDts] at h
    cases h
    simp at hv
  | cons dt rest ih =>
    intro vs h v hv
    rw [genEventsDts] at h
    split at h
    · split at h
      · cases h
      next v0 hv0 =>
        split at h
        · cases h
        next vs0 hvs0 =>
          cases h
          rcases List.mem_cons.mp hv with hveq | hvmem
          · obtain ⟨idx, size, _, hsize, hv0eq⟩ := mkEventVariant_char g domain dt v0 hv0
            subst hveq
            rw [hv0eq]
            exact ⟨size, hsize, rfl⟩
          · exact ih vs0 hvs0 v hvmem
    · exact ih vs h v hv

/-- Lifting of `genEventsDts_boxed` over the domain loop. -/
theorem genEventsDomains_boxed (g : Generator) (ds : List Domain) :
    ∀ (vs : List EventVariant), genEventsDomains g ds = Except.ok vs →
      ∀ v ∈ vs, ∃ size, alookup g.typeSize v.tyIdent = some size ∧
        v.boxed = (if size < 200 then false else true) := by
  induction ds with
  | nil =>
    intro vs h v hv
    simp only [genEventsDomains] at h
    cases h
    simp at hv
  | cons d rest ih =>
    intro vs h v hv
    rw [genEventsDomains] at h
    split at h
    · split at h
      · cases h
      next vs0 hvs0 =>
        split at h
        · cases h
        next ws0 hws0 =>
          cases h
          rcases List.mem_append.mp hv with hvmem | hvmem
          · exact genEventsDts_boxed g d d.datatypes vs0 hvs0 v hvmem
          · exact ih ws0 hws0 v hvmem
    · exact ih vs h v hv

/-- Lifting of `genEventsDomains_boxed` over the document loop. -/
theorem generate_event_enums_boxed (g : Generator) (pdls : List Protocol) :
    ∀ (vs : List EventVariant), generate_event_enums g pdls = Except.ok vs →
      ∀ v ∈ vs, ∃ size, alookup g.typeSize v.tyIdent = some size ∧
        v.boxed = (if size < 200 then false else true) := by
  induction pdls with
  | nil =>
    intro vs h v hv
    simp only [generate_event_enums] at h
    cases h
    simp at hv
  | cons p rest ih =>
    intro vs h v hv
    rw [generate_event_enums] at h
    split at h
    · cases h
    next vs0 hvs0 =>
      split at h
      · cases h
      next ws0 hws0 =>
        cases h
        rcases List.mem_append.mp hv with hvmem | hvmem
        · exact genEventsDomains_boxed g p.domains vs0 hvs0 v hvmem
        · exact ih ws0 hws0 v hvmem

/-! ## C1: the 200-size-unit boxing threshold -/

/-- C1: in a successful compilation, every `Event` union case's type has
a finalized tracked size in the output size table, and the payload is
embedded inline exactly when that size is strictly below 200 size-units
(boxed at 200 and above). -/
theorem claim_c1 (g : Generator) (inputs : List (String × Protocol))
    (out : Output) (h : compile_pdls g inputs = Except.ok out) :
    ∀ v ∈ out.events, ∃ size, alookup out.typeSize v.tyIdent = some size ∧
      (v.boxed = false ↔ size < 200) := by
  intro v hv
  rw [compile_pdls] at h
  split at h
  · cases h
  next g1 prots hgen =>
    split at h
    · cases h
    next table hdrain =>
      split at h
      · cases h
      next events hevents =>
        cases h
        obtain ⟨size, hsize, hboxed⟩ :=
          generate_event_enums_boxed _ (inputs.map Prod.snd) events hevents v hv
        refine ⟨size, hsize, ?_⟩
        rw [hboxed]
        by_cases hlt : size < 200
        · simp [hlt]
        · simp [hlt]

/-- Witness for C1 on both sides of the boundary: an event of size 199
is embedded inline and an event of size 200 is boxed. -/
theorem claim_c1_witness :
    compile_pdls Generator.default [("browser_protocol", protoEvents)] =
      Except.ok outEvents ∧
    vSmall ∈ outEvents.events ∧ vBig ∈ outEvents.events ∧
    alookup outEvents.typeSize "Small" = some 199 ∧
    alookup outEvents.typeSize "Big" = some 200 ∧
    vSmall.boxed = false ∧ vBig.boxed = true ∧
    (∃ size, alookup outEvents.typeSize vSmall.tyIdent = some size ∧
      (vSmall.boxed = false ↔ size < 200)) ∧
    (∃ size, alookup outEvents.typeSize vBig.tyIdent = some size ∧
      (vBig.boxed = false ↔ size < 200)) := by
  refine ⟨by rfl, by decide, by decide, by decide, by decide, by decide, by decide,
    ?_, ?_⟩
  · exact claim_c1 Generator.default [("browser_protocol", protoEvents)]
      outEvents (by rfl) vSmall (by decide)
  · exact claim_c1 Generator.default [("browser_protocol", protoEvents)]
      outEvents (by rfl) vBig (by decide)

/-! ## Filter characterizations -/

theorem includedFlags_congr {g g' : Generator} (h : g'.config = g.config)
    (dep exp : Bool) : includedFlags g' dep exp = includedFlags g dep exp := by
  obtain ⟨_, _, hd, he⟩ := config_eq_fields h
  unfold includedFlags
  rw [hd, he]

theorem domainIncluded_congr {g g' : Generator} (h : g'.config = g.config)
    (d : Domain) : domainIncluded g' d = domainIncluded g d :=
  includedFlags_congr h _ _

theorem dtIncluded_congr {g g' : Generator} (h : g'.config = g.config)
    (dt : DomainDatatype) : dtIncluded g' dt = dtIncluded g dt :=
  includedFlags_congr h _ _

theorem eventIncluded_congr {g g' : Generator} (h : g'.config = g.config)
    (dt : DomainDatatype) : eventIncluded g' dt = eventIncluded g dt := by
  unfold eventIncluded
  rw [dtIncluded_congr h]

theorem filterParams_congr {g g' : Generator} (h : g'.config = g.config)
    (ps : List Param) : filterParams g' ps = filterParams g ps := by
  unfold filterParams
  exact List.filter_congr (fun p _ => includedFlags_congr h _ _)

/-- A map-extraction principle for positional field correspondences. -/
theorem forall₂_map_eq {α β γ : Type} {f : α → γ} {h : β → γ}
    {l1 : List α} {l2 : List β}
    (hf : List.Forall₂ (fun a b => h b = f a) l1 l2) :
    l2.map h = l1.map f := by
  induction hf with
  | nil => rfl
  | cons h1 _ ih => simp [ih, h1]

/-- The generated field names are exactly the (already filtered)
parameter names, snake-cased and keyword-escaped. -/
theorem generate_struct_names (g : Generator) (domain : Domain)
    (dt : DomainDatatype) (structIdent : String) (params : List Param)
    (g' : Generator) (out : StructOut)
    (h : generate_struct g domain dt structIdent params = Except.ok (g', out)) :
    out.fields.map FieldDef.name = params.map (fun p => field_name p.name) := by
  rw [generate_struct] at h
  split at h
  · cases h
  next g1 fields hoisted hfs =>
    have hforall : List.Forall₂ (fun (p : Param) (f : FieldDef) =>
        FieldDef.name f = field_name p.name) params fields :=
      (genFields_forall₂ domain dt structIdent params g g1 fields hoisted hfs).imp
        (fun _ _ hpf => hpf.1)
    have hnames := forall₂_map_eq hforall
    split at h
    next hempty =>
      have hfields : fields = [] := by
        cases fields with
        | nil => rfl
        | cons a l => simp [List.isEmpty] at hempty
      subst hfields
      split at h
      · split at h
        · cases h
        next wty sz hft =>
          cases h
          exact hnames
      · cases h
        exact hnames
    · cases h
      exact hnames

/-- `generate_type` names its output after the datatype. -/
theorem generate_type_dtName (g : Generator) (domain : Domain)
    (dt : DomainDatatype) (g' : Generator) (t : TypeOut)
    (h : generate_type g domain dt = Except.ok (g', t)) : t.dtName = dt.name := by
  rw [generate_type] at h
  split at h
  · cases h
    rfl
  · split at h
    · cases h
    next g1 main hmain =>
      split at h
      · split at h
        · cases h
        next g2 ret hret =>
          cases h
          rfl
      · cases h
        rfl

/-- A non-enum datatype's main struct holds one field per filtered
parameter, named after it. -/
theorem generate_type_main_fields (g : Generator) (domain : Domain)
    (dt : DomainDatatype) (g' : Generator) (t : TypeOut)
    (henum : dt.asEnum = Option.none)
    (h : generate_type g domain dt = Except.ok (g', t)) :
    ∃ main, t.main = some main ∧
      main.fields.map FieldDef.name =
        (filterParams g dt.params).map (fun p => field_name p.name) := by
  rw [generate_type] at h
  split at h
  next vars heq => rw [henum] at heq; cases heq
  · split at h
    · cases h
    next g1 main hmain =>
      have hnames := generate_struct_names g domain dt dt.identName
        (filterParams g dt.params) g1 main hmain
      split at h
      · split at h
        · cases h
        next g2 ret hret =>
          cases h
          exact ⟨main, rfl, hnames⟩
      · cases h
        exact ⟨main, rfl, hnames⟩

/-- The generated domain modules are exactly the included domains, in
order, named after them. -/
theorem genDomains_names (ds : List Domain) :
    ∀ (g g' : Generator) (outs : List DomainOut),
      genDomains g ds = Except.ok (g', outs) →
      outs.map DomainOut.name =
        (ds.filter (fun d => domainIncluded g d)).map Domain.name := by
  induction ds with
  | nil =>
    intro g g' outs h
    simp only [genDomains] at h
    cases h
    rfl
  | cons d rest ih =>
    intro g g' outs h
    rw [genDomains] at h
    split at h
    next hd =>
      split at h
      · cases h
      next g1 items hdom =>
        split at h
        · cases h
        next g2 ds2 hrec =>
          cases h
          have hcfg : g1.config = g.config := genDatatypes_config _ _ _ _ _ hdom
          have ihr := ih _ _ _ hrec
          rw [List.filter_congr (fun d' _ => domainIncluded_congr hcfg d')] at ihr
          simp [List.filter_cons, hd, ihr]
    next hd =>
      have hdf : domainIncluded g d = false := by
        cases hdd : domainIncluded g d
        · rfl
        · exact absurd hdd hd
      have ihr := ih g g' outs h
      simp [List.filter_cons, hdf, ihr]

/-- The generated datatypes of a domain are exactly the included ones,
in order, named after them. -/
theorem genDatatypes_names (domain : Domain) (dts : List DomainDatatype) :
    ∀ (g g' : Generator) (ts : List TypeOut),
      genDatatypes g domain dts = Except.ok (g', ts) →
      ts.map TypeOut.dtName =
        (dts.filter (fun dt => dtIncluded g dt)).map DomainDatatype.name := by
  induction dts with
  | nil =>
    intro g g' ts h
    simp only [genDatatypes] at h
    cases h
    rfl
  | cons dt rest ih =>
    intro g g' ts h
    rw [genDatatypes] at h
    split at h
    next hd =>
      split at h
      · cases h
      next g1 t hty =>
        split at h
        · cases h
        next g2 ts2 hrec =>
          cases h
          have hcfg : g1.config = g.config := generate_type_config _ _ _ _ _ hty
          have ihr := ih _ _ _ hrec
          rw [List.filter_congr (fun dt' _ => dtIncluded_congr hcfg dt')] at ihr
          simp [List.filter_cons, hd, ihr, generate_type_dtName _ _ _ _ _ hty]
    next hd =>
      have hdf : dtIncluded g dt = false := by
        cases hdd : dtIncluded g dt
        · rfl
        · exact absurd hdd hd
      have ihr := ih g g' ts h
      simp [List.filter_cons, hdf, ihr]

/-- The event union's case names for one domain are exactly the included
events', in order. -/
theorem genEventsDts_names (g : Generator) (d : Domain)
    (dts : List DomainDatatype) :
    ∀ (vs : List EventVariant), genEventsDts g d dts = Except.ok vs →
      vs.map EventVariant.varIdent =
        (dts.filter (fun dt => eventIncluded g dt)).map
          (fun dt => toCamelCase d.name ++ toCamelCase dt.name) := by
  induction dts with
  | nil =>
    intro vs h
    simp only [genEventsDts] at h
    cases h
    rfl
  | cons dt rest ih =>
    intro vs h
    rw [genEventsDts] at h
    split at h
    next hd =>
      split at h
      · cases h
      next v0 hv0 =>
        split at h
        · cases h
        next vs0 hvs0 =>
          cases h
          obtain ⟨idx, size, _, _, hveq⟩ := mkEventVariant_char g d dt v0 hv0
          simp [List.filter_cons, hd, ih vs0 hvs0, hveq]
    next hd =>
      have hdf : eventIncluded g dt = false := by
        cases hdd : eventIncluded g dt
        · rfl
        · exact absurd hdd hd
      simp [List.filter_cons, hdf, ih vs h]

/-- The event union's case names across domains are exactly the included
events of the included domains, flattened in order. -/
theorem genEventsDomains_names (g : Generator) (ds : List Domain) :
    ∀ (vs : List EventVariant), genEventsDomains g ds = Except.ok vs →
      vs.map EventVariant.varIdent =
        ((ds.filter (fun d => domainIncluded g d)).map
          (fun d => (d.datatypes.filter (fun dt => eventIncluded g dt)).map
            (fun dt => toCamelCase d.name ++ toCamelCase dt.name))).flatten := by
  induction ds with
  | nil =>
    intro vs h
    simp only [genEventsDomains] at h
    cases h
    rfl
  | cons d rest ih =>
    intro vs h
    rw [genEventsDomains] at h
    split at h
    next hd =>
      split at h
      · cases h
      next vs0 hvs0 =>
        split at h
        · cases h
        next ws0 hws0 =>
          cases h
          simp [List.filter_cons, hd, ih ws0 hws0,
            genEventsDts_names g d d.datatypes vs0 hvs0]
    next hd =>
      have hdf : domainIncluded g d = false := by
        cases hdd : domainIncluded g d
        · rfl
        · exact absurd hdd hd
      simp [List.filter_cons, hdf, ih vs h]

/-! ## C8: default configuration and inclusion filtering -/

/-- C8: the default configuration includes experimental and excludes
deprecated items; a domain, datatype, event-union case or parameter
survives generation exactly when each of its set flags has the
corresponding inclusion option enabled, at every level of the output. -/
theorem claim_c8 :
    Generator.default.withExperimental = true ∧
    Generator.default.withDeprecated = false ∧
    (∀ (g : Generator) (dep exp : Bool),
      includedFlags g dep exp = true ↔
        ((dep = true → g.withDeprecated = true) ∧
          (exp = true → g.withExperimental = true))) ∧
    (∀ (ds : List Domain) (g g' : Generator) (outs : List DomainOut),
      genDomains g ds = Except.ok (g', outs) →
      outs.map DomainOut.name =
        (ds.filter (fun d => domainIncluded g d)).map Domain.name) ∧
    (∀ (domain : Domain) (dts : List DomainDatatype) (g g' : Generator)
        (ts : List TypeOut),
      genDatatypes g domain dts = Except.ok (g', ts) →
      ts.map TypeOut.dtName =
        (dts.filter (fun dt => dtIncluded g dt)).map DomainDatatype.name) ∧
    (∀ (g : Generator) (domain : Domain) (dt : DomainDatatype) (g' : Generator)
        (t : TypeOut),
      dt.asEnum = Option.none →
      generate_type g domain dt = Except.ok (g', t) →
      ∃ main, t.main = some main ∧
        main.fields.map FieldDef.name =
          (filterParams g dt.params).map (fun p => field_name p.name)) ∧
    (∀ (g : Generator) (ds : List Domain) (vs : List EventVariant),
      genEventsDomains g ds = Except.ok vs →
      vs.map EventVariant.varIdent =
        ((ds.filter (fun d => domainIncluded g d)).map
          (fun d => (d.datatypes.filter (fun dt => eventIncluded g dt)).map
            (fun dt => toCamelCase d.name ++ toCamelCase dt.name))).flatten) := by
  refine ⟨rfl, rfl, ?_, genDomains_names, genDatatypes_names,
    fun g domain dt g' t henum h => generate_type_main_fields g domain dt g' t henum h,
    fun g ds vs h => genEventsDomains_names g ds vs h⟩
  intro g dep exp
  unfold includedFlags
  cases dep <;> cases exp <;> simp

/-- Witness for C8 on a mixed input: under the default configuration the
deprecated domain, event and parameter are dropped while the
experimental event is kept. -/
theorem claim_c8_witness :
    ((gdOuts (genDomains Generator.default [domMix, domDead])).map
        DomainOut.name =
      ([domMix, domDead].filter
        (fun d => domainIncluded Generator.default d)).map Domain.name) ∧
    (([domMix, domDead].filter
        (fun d => domainIncluded Generator.default d)).map Domain.name =
      ["Mix"]) ∧
    ((domMix.datatypes.filter
        (fun dt => dtIncluded Generator.default dt)).map DomainDatatype.name =
      ["okay", "exp", "mixed"]) ∧
    ((filterParams Generator.default evMixParams.params).map
        (fun p => field_name p.name) = ["keep"]) ∧
    (∃ main,
      (gtOut (generate_type Generator.default domMix
        (DomainDatatype.event evMixParams))).main = some main ∧
      main.fields.map FieldDef.name =
        (filterParams Generator.default evMixParams.params).map
          (fun p => field_name p.name)) ∧
    ((evsOf (genEventsDomains mixG1 [domMix, domDead])).map
        EventVariant.varIdent = ["MixOkay", "MixExp", "MixMixed"]) := by
  refine ⟨?_, by decide, by decide, by decide, ?_, ?_⟩
  · exact claim_c8.2.2.2.1 [domMix, domDead] Generator.default
      (gdGen (genDomains Generator.default [domMix, domDead]))
      (gdOuts (genDomains Generator.default [domMix, domDead])) (by rfl)
  · exact claim_c8.2.2.2.2.2.1 Generator.default domMix
      (DomainDatatype.event evMixParams)
      (gtGen (generate_type Generator.default domMix
        (DomainDatatype.event evMixParams)))
      (gtOut (generate_type Generator.default domMix
        (DomainDatatype.event evMixParams))) (by decide) (by rfl)
  · have h := claim_c8.2.2.2.2.2.2 mixG1 [domMix, domDead]
      (evsOf (genEventsDomains mixG1 [domMix, domDead])) (by rfl)
    rw [h]
    decide

/-! ## Size-table key preservation

Lemmas bounding which size-table keys and worklist pairs a generation
step can touch, in terms of `dtKeys`.
-/

theorem hoistEnum_typeSize (g : Generator) (dt : DomainDatatype) (p : Param)
    (k : String) (hk : k ∉ subenumKeysOf dt.name [p]) :
    alookup (hoistEnum g dt p).1.typeSize k = alookup g.typeSize k := by
  unfold hoistEnum
  cases hp : p.type with
  | enum vs =>
    have hne : k ≠ toCamelCase (lastSegment (subenum_name dt.name p.name)) := by
      intro hek
      apply hk
      unfold subenumKeysOf
      simp [List.filter_cons, hp, hek]
    exact alookup_aset_ne _ _ _ _ hne
  | integer => rfl
  | number => rfl
  | boolean => rfl
  | string => rfl
  | object => rfl
  | any => rfl
  | binary => rfl
  | arrayOf t => rfl
  | ref n => rfl

theorem hoistEnum_refSizes (g : Generator) (dt : DomainDatatype) (p : Param) :
    (hoistEnum g dt p).1.refSizes = g.refSizes := by
  unfold hoistEnum
  cases p.type <;> rfl

theorem store_size_typeSize_ne (g : Generator) (ty : String) (s : SizeOrRef)
    (k : String) (h : k ≠ ty) :
    alookup (store_size g ty s).typeSize k = alookup g.typeSize k := by
  cases s with
  | size n => exact alookup_aadd_ne _ _ _ _ h
  | ref name => rfl

theorem store_size_refSizes_fst (g : Generator) (ty : String) (s : SizeOrRef) :
    ∃ new, (store_size g ty s).refSizes = g.refSizes ++ new ∧
      ∀ pr ∈ new, pr.1 = ty := by
  cases s with
  | size n => exact ⟨[], by simp [store_size], by simp⟩
  | ref name =>
    refine ⟨[(ty, name)], rfl, ?_⟩
    intro pr hpr
    rw [List.mem_singleton] at hpr
    rw [hpr]

theorem subenumKeysOf_cons (parent : String) (p : Param) (ps : List Param) :
    subenumKeysOf parent (p :: ps) =
      subenumKeysOf parent [p] ++ subenumKeysOf parent ps := by
  unfold subenumKeysOf
  cases hp : p.type <;> simp [List.filter_cons, hp]

theorem subenumKeysOf_filter_subset (parent : String) (q : Param → Bool)
    (ps : List Param) (k : String)
    (hk : k ∈ subenumKeysOf parent (ps.filter q)) :
    k ∈ subenumKeysOf parent ps := by
  unfold subenumKeysOf at hk ⊢
  obtain ⟨p, hp, hpk⟩ := List.mem_map.mp hk
  rw [List.mem_filter] at hp
  obtain ⟨hp1, hp2⟩ := hp
  rw [List.mem_filter] at hp1
  exact List.mem_map.mpr ⟨p, List.mem_filter.mpr ⟨hp1.1, hp2⟩, hpk⟩

theorem genFields_preserve (domain : Domain) (dt : DomainDatatype)
    (structIdent : String) (ps : List Param) :
    ∀ (g g' : Generator) (fs : List FieldDef) (es : List EnumOut),
      genFields g domain dt structIdent ps = Except.ok (g', fs, es) →
      (∀ k, k ≠ structIdent → k ∉ subenumKeysOf dt.name ps →
        alookup g'.typeSize k = alookup g.typeSize k) ∧
      (∃ new, g'.refSizes = g.refSizes ++ new ∧
        ∀ pr ∈ new, pr.1 = structIdent) := by
  induction ps with
  | nil =>
    intro g g' fs es h
    simp only [genFields] at h
    cases h
    exact ⟨fun k _ _ => rfl, [], by simp, by simp⟩
  | cons p ps ih =>
    intro g g' fs es h
    rw [genFields] at h
    split at h
    · cases h
    next ty sz hft =>
      split at h
      · cases h
      next g2 fs2 es2 hrec =>
        cases h
        obtain ⟨ihl, new2, hnew2, hfst2⟩ := ih _ _ _ _ hrec
        constructor
        · intro k hks hke
          rw [subenumKeysOf_cons] at hke
          have hk1 : k ∉ subenumKeysOf dt.name [p] := fun hx =>
            hke (List.mem_append_left _ hx)
          have hk2 : k ∉ subenumKeysOf dt.name ps := fun hx =>
            hke (List.mem_append_right _ hx)
          rw [ihl k hks hk2, store_size_typeSize_ne _ _ _ _ hks]
          exact hoistEnum_typeSize g dt p k hk1
        · obtain ⟨new1, hnew1, hfst1⟩ :=
            store_size_refSizes_fst (hoistEnum g dt p).1 structIdent sz
          refine ⟨new1 ++ new2, ?_, ?_⟩
          · rw [hnew2, hnew1, hoistEnum_refSizes, List.append_assoc]
          · intro pr hpr
            rcases List.mem_append.mp hpr with h1 | h1
            · exact hfst1 pr h1
            · exact hfst2 pr h1

theorem generate_struct_preserve (g : Generator) (domain : Domain)
    (dt : DomainDatatype) (structIdent : String) (params : List Param)
    (g' : Generator) (out : StructOut)
    (h : generate_struct g domain dt structIdent params = Except.ok (g', out)) :
    (∀ k, k ≠ structIdent → k ∉ subenumKeysOf dt.name params →
      alookup g'.typeSize k = alookup g.typeSize k) ∧
    (∃ new, g'.refSizes = g.refSizes ++ new ∧
      ∀ pr ∈ new, pr.1 = structIdent) := by
  rw [generate_struct] at h
  split at h
  · cases h
  next g1 fields hoisted hfs =>
    obtain ⟨hl, new1, hnew1, hfst1⟩ :=
      genFields_preserve domain dt structIdent params g g1 fields hoisted hfs
    split at h
    · split at h
      · split at h
        · cases h
        next wty sz hft =>
          cases h
          constructor
          · intro k hks hke
            rw [store_size_typeSize_ne _ _ _ _ hks]
            exact hl k hks hke
          · obtain ⟨new2, hnew2, hfst2⟩ :=
              store_size_refSizes_fst g1 structIdent sz
            refine ⟨new1 ++ new2, ?_, ?_⟩
            · rw [hnew2, hnew1, List.append_assoc]
            · intro pr hpr
              rcases List.mem_append.mp hpr with h1 | h1
              · exact hfst1 pr h1
              · exact hfst2 pr h1
      · cases h
        constructor
        · intro k hks hke
          have : alookup (aset g1.typeSize structIdent 0) k =
              alookup g1.typeSize k := alookup_aset_ne _ _ _ _ hks
          rw [this]
          exact hl k hks hke
        · exact ⟨new1, hnew1, hfst1⟩
    · cases h
      exact ⟨hl, new1, hnew1, hfst1⟩

theorem generate_type_preserve (g : Generator) (domain : Domain)
    (dt : DomainDatatype) (g' : Generator) (t : TypeOut) (k : String)
    (hk : k ∉ dtKeys dt)
    (h : generate_type g domain dt = Except.ok (g', t)) :
    alookup g'.typeSize k = alookup g.typeSize k ∧
    (∃ new, g'.refSizes = g.refSizes ++ new ∧ ∀ pr ∈ new, pr.1 ≠ k) := by
  simp only [dtKeys, List.mem_cons, List.mem_append, not_or] at hk
  obtain ⟨hk1, hk2, hk3, hk4, hk5⟩ := hk
  rw [generate_type] at h
  split at h
  · cases h
    refine ⟨alookup_aset_ne _ _ _ _ hk1, [], by simp [generate_enum], by simp⟩
  · split at h
    · cases h
    next g1 main hmain =>
      obtain ⟨hl1, new1, hnew1, hfst1⟩ := generate_struct_preserve g domain dt
        dt.identName (filterParams g dt.params) g1 main hmain
      have hpres1 : alookup g1.typeSize k = alookup g.typeSize k :=
        hl1 k hk2 (fun hx => hk4 (subenumKeysOf_filter_subset _ _ _ _ hx))
      split at h
      · split at h
        · cases h
        next g2 ret hret =>
          cases h
          obtain ⟨hl2, new2, hnew2, hfst2⟩ :=
            generate_struct_preserve _ _ _ _ _ _ _ hret
          have hpres2 := hl2 k hk3
            (fun hx => hk5 (subenumKeysOf_filter_subset _ _ _ _ hx))
          refine ⟨hpres2.trans hpres1, new1 ++ new2, ?_, ?_⟩
          · rw [hnew2, hnew1, List.append_assoc]
          · intro pr hpr
            rcases List.mem_append.mp hpr with h1 | h1
            · exact fun hx => hk2 (hx.symm.trans (hfst1 pr h1))
            · exact fun hx => hk3 (hx.symm.trans (hfst2 pr h1))
      · cases h
        refine ⟨hpres1, new1, hnew1, ?_⟩
        intro pr hpr
        exact fun hx => hk2 (hx.symm.trans (hfst1 pr hpr))

theorem genDatatypes_preserve (domain : Domain) (dts : List DomainDatatype) :
    ∀ (g g' : Generator) (ts : List TypeOut) (k : String),
      genDatatypes g domain dts = Except.ok (g', ts) →
      (∀ dt ∈ dts, k ∉ dtKeys dt) →
      alookup g'.typeSize k = alookup g.typeSize k ∧
      (∃ new, g'.refSizes = g.refSizes ++ new ∧ ∀ pr ∈ new, pr.1 ≠ k) := by
  induction dts with
  | nil =>
    intro g g' ts k h _
    simp only [genDatatypes] at h
    cases h
    exact ⟨rfl, [], by simp, by simp⟩
  | cons dt rest ih =>
    intro g g' ts k h hks
    rw [genDatatypes] at h
    split at h
    · split at h
      · cases h
      next g1 t hty =>
        split at h
        · cases h
        next g2 ts2 hrec =>
          cases h
          obtain ⟨hp1, new1, hnew1, hfst1⟩ := generate_type_preserve g domain dt
            g1 t k (hks dt (List.mem_cons_self dt rest)) hty
          obtain ⟨hp2, new2, hnew2, hfst2⟩ := ih g1 _ ts2 k hrec
            (fun dt' hdt' => hks dt' (List.mem_cons_of_mem dt hdt'))
          refine ⟨hp2.trans hp1, new1 ++ new2, ?_, ?_⟩
          · rw [hnew2, hnew1, List.append_assoc]
          · intro pr hpr
            rcases List.mem_append.mp hpr with h1 | h1
            · exact hfst1 pr h1
            · exact hfst2 pr h1
    · exact ih g g' ts k h (fun dt' hdt' => hks dt' (List.mem_cons_of_mem dt hdt'))

theorem genDomains_preserve (ds : List Domain) :
    ∀ (g g' : Generator) (outs : List DomainOut) (k : String),
      genDomains g ds = Except.ok (g', outs) →
      (∀ d ∈ ds, domainIncluded g d = true →
        ∀ dt ∈ d.datatypes, k ∉ dtKeys dt) →
      alookup g'.typeSize k = alookup g.typeSize k ∧
      (∃ new, g'.refSizes = g.refSizes ++ new ∧ ∀ pr ∈ new, pr.1 ≠ k) := by
  induction ds with
  | nil =>
    intro g g' outs k h _
    simp only [genDomains] at h
    cases h
    exact ⟨rfl, [], by simp, by simp⟩
  | cons d rest ih =>
    intro g g' outs k h hks
    rw [genDomains] at h
    split at h
    next hd =>
      split at h
      · cases h
      next g1 items hdom =>
        split at h
        · cases h
        next g2 ds2 hrec =>
          cases h
          obtain ⟨hp1, new1, hnew1, hfst1⟩ := genDatatypes_preserve d d.datatypes
            g g1 items k hdom (hks d (List.mem_cons_self d rest) hd)
          have hcfg : g1.config = g.config := genDatatypes_config _ _ _ _ _ hdom
          obtain ⟨hp2, new2, hnew2, hfst2⟩ := ih g1 _ ds2 k hrec
            (fun d' hd' hinc => hks d' (List.mem_cons_of_mem d hd')
              ((domainIncluded_congr hcfg d') ▸ hinc))
          refine ⟨hp2.trans hp1, new1 ++ new2, ?_, ?_⟩
          · rw [hnew2, hnew1, List.append_assoc]
          · intro pr hpr
            rcases List.mem_append.mp hpr with h1 | h1
            · exact hfst1 pr h1
            · exact hfst2 pr h1
    · exact ih g g' outs k h
        (fun d' hd' hinc => hks d' (List.mem_cons_of_mem d hd') hinc)

theorem genProtocols_preserve (inputs : List (String × Protocol)) :
    ∀ (g g' : Generator) (prots : List (String × List DomainOut)) (k : String),
      genProtocols g inputs = Except.ok (g', prots) →
      (∀ mp ∈ inputs, ∀ d ∈ mp.2.domains, domainIncluded g d = true →
        ∀ dt ∈ d.datatypes, k ∉ dtKeys dt) →
      alookup g'.typeSize k = alookup g.typeSize k ∧
      (∃ new, g'.refSizes = g.refSizes ++ new ∧ ∀ pr ∈ new, pr.1 ≠ k) := by
  induction inputs with
  | nil =>
    intro g g' prots k h _
    simp only [genProtocols] at h
    cases h
    exact ⟨rfl, [], by simp, by simp⟩
  | cons mp rest ih =>
    intro g g' prots k h hks
    obtain ⟨m0, p0⟩ := mp
    rw [genProtocols] at h
    split at h
    · cases h
    next g1 ds hdoc =>
      split at h
      · cases h
      next g2 ps hrec =>
        cases h
        obtain ⟨hp1, new1, hnew1, hfst1⟩ := genDomains_preserve p0.domains
          g g1 ds k hdoc (hks (m0, p0) (List.mem_cons_self _ rest))
        have hcfg : g1.config = g.config := genDomains_config _ _ _ _ hdoc
        obtain ⟨hp2, new2, hnew2, hfst2⟩ := ih g1 _ ps k hrec
          (fun mp' hmp' d' hd' hinc => hks mp' (List.mem_cons_of_mem _ hmp') d' hd'
            ((domainIncluded_congr hcfg d') ▸ hinc))
        refine ⟨hp2.trans hp1, new1 ++ new2, ?_, ?_⟩
        · rw [hnew2, hnew1, List.append_assoc]
        · intro pr hpr
          rcases List.mem_append.mp hpr with h1 | h1
          · exact hfst1 pr h1
          · exact hfst2 pr h1

/-- Draining pairs none of which depend on `k` leaves `k`'s entry
unchanged. -/
theorem drainRefs_preserve (pairs : List (String × String)) :
    ∀ (table table' : List (String × Nat)) (k : String),
      (∀ pr ∈ pairs, pr.1 ≠ k) →
      drainRefs table pairs = Except.ok table' →
      alookup table' k = alookup table k := by
  induction pairs with
  | nil =>
    intro table table' k _ h
    simp only [drainRefs] at h
    cases h
    rfl
  | cons pr rest ih =>
    intro table table' k hfst h
    obtain ⟨n, reff⟩ := pr
    rw [drainRefs] at h
    split at h
    · cases h
    next s hs =>
      have hk : k ≠ n :=
        Ne.symm (hfst (n, reff) (List.mem_cons_self _ rest))
      have := ih _ _ k (fun pr' hpr' => hfst pr' (List.mem_cons_of_mem _ hpr')) h
      rw [this, alookup_aadd_ne _ _ _ _ hk]

/-! ## A parameterless event's size-table entry -/

/-- Generating a parameterless event inserts exactly `0` for its ident
(overwriting any prior entry) and pushes no worklist pairs. -/
theorem generate_type_event_zero (g : Generator) (domain : Domain) (ev : Event)
    (g' : Generator) (t : TypeOut)
    (hnp : filterParams g ev.params = [])
    (h : generate_type g domain (DomainDatatype.event ev) = Except.ok (g', t)) :
    alookup g'.typeSize (DomainDatatype.event ev).identName = some 0 ∧
    g'.refSizes = g.refSizes := by
  have heq : generate_type g domain (DomainDatatype.event ev) =
      match generate_struct g domain (DomainDatatype.event ev)
          (DomainDatatype.event ev).identName (filterParams g ev.params) with
      | Except.error e => Except.error e
      | Except.ok (g1, main) =>
        Except.ok (g1, { dtName := ev.name, bareEnum := Option.none
                         main := some main, returns := Option.none }) := rfl
  rw [heq, hnp] at h
  cases Except.ok.inj h
  exact ⟨alookup_aset_self _ _ _, rfl⟩

/-- Through a domain's datatype list: once the parameterless event is
generated, its entry is `0`, and it stays `0` provided every other
datatype's key footprint avoids the event's ident. -/
theorem genDatatypes_event_zero (domain : Domain) (ev : Event)
    (dts : List DomainDatatype) :
    ∀ (g g' : Generator) (ts : List TypeOut),
      genDatatypes g domain dts = Except.ok (g', ts) →
      DomainDatatype.event ev ∈ dts →
      dtIncluded g (DomainDatatype.event ev) = true →
      filterParams g ev.params = [] →
      (∀ dt' ∈ dts, dt' = DomainDatatype.event ev ∨
        (DomainDatatype.event ev).identName ∉ dtKeys dt') →
      (∀ pr ∈ g.refSizes, pr.1 ≠ (DomainDatatype.event ev).identName) →
      alookup g'.typeSize (DomainDatatype.event ev).identName = some 0 ∧
      (∀ pr ∈ g'.refSizes, pr.1 ≠ (DomainDatatype.event ev).identName) := by
  induction dts with
  | nil =>
    intro g g' ts h hmem _ _ _ _
    simp at hmem
  | cons dt rest ih =>
    intro g g' ts h hmem hinc hnp huniq hrs
    rw [genDatatypes] at h
    split at h
    next hd =>
      split at h
      · cases h
      next g1 t hty =>
        split at h
        · cases h
        next g2 ts2 hrec =>
          cases h
          have hcfg : g1.config = g.config := generate_type_config _ _ _ _ _ hty
          by_cases hdt : dt = DomainDatatype.event ev
          · subst hdt
            obtain ⟨hz, hrseq⟩ := generate_type_event_zero g domain ev g1 t hnp hty
            have hrs1 : ∀ pr ∈ g1.refSizes,
                pr.1 ≠ (DomainDatatype.event ev).identName := by
              rw [hrseq]
              exact hrs
            by_cases hmem2 : DomainDatatype.event ev ∈ rest
            · exact ih _ _ _ hrec hmem2
                (by rw [dtIncluded_congr hcfg]; exact hinc)
                (by rw [filterParams_congr hcfg]; exact hnp)
                (fun dt' hdt' => huniq dt' (List.mem_cons_of_mem _ hdt')) hrs1
            · have hknotin : ∀ dt' ∈ rest,
                  (DomainDatatype.event ev).identName ∉ dtKeys dt' := by
                intro dt' hdt'
                rcases huniq dt' (List.mem_cons_of_mem _ hdt') with heq | hnk
                · exact absurd (heq ▸ hdt') hmem2
                · exact hnk
              obtain ⟨hp, new, hnew, hfst⟩ :=
                genDatatypes_preserve domain rest g1 _ ts2 _ hrec hknotin
              refine ⟨hp.trans hz, ?_⟩
              intro pr hpr
              rw [hnew] at hpr
              rcases List.mem_append.mp hpr with h1 | h1
              · exact hrs1 pr h1
              · exact hfst pr h1
          · have hnk : (DomainDatatype.event ev).identName ∉ dtKeys dt := by
              rcases huniq dt (List.mem_cons_self _ _) with heq | hnk
              · exact absurd heq hdt
              · exact hnk
            obtain ⟨hp1, new1, hnew1, hfst1⟩ :=
              generate_type_preserve g domain dt g1 t _ hnk hty
            have hmem2 : DomainDatatype.event ev ∈ rest := by
              rcases List.mem_cons.mp hmem with heqv | hm
              · exact absurd heqv.symm hdt
              · exact hm
            have hrs1 : ∀ pr ∈ g1.refSizes,
                pr.1 ≠ (DomainDatatype.event ev).identName := by
              intro pr hpr
              rw [hnew1] at hpr
              rcases List.mem_append.mp hpr with h1 | h1
              · exact hrs pr h1
              · exact hfst1 pr h1
            exact ih _ _ _ hrec hmem2
              (by rw [dtIncluded_congr hcfg]; exact hinc)
              (by rw [filterParams_congr hcfg]; exact hnp)
              (fun dt' hdt' => huniq dt' (List.mem_cons_of_mem _ hdt')) hrs1
    next hd =>
      have hmem2 : DomainDatatype.event ev ∈ rest := by
        rcases List.mem_cons.mp hmem with heqv | hm
        · exfalso
          apply hd
          rw [heqv] at hinc
          exact hinc
        · exact hm
      exact ih g g' ts h hmem2 hinc hnp
        (fun dt' hdt' => huniq dt' (List.mem_cons_of_mem _ hdt')) hrs

/-- Through a document's domain list. -/
theorem genDomains_event_zero (ev : Event) (ds : List Domain) :
    ∀ (g g' : Generator) (outs : List DomainOut),
      genDomains g ds = Except.ok (g', outs) →
      (∃ d ∈ ds, domainIncluded g d = true ∧
        DomainDatatype.event ev ∈ d.datatypes) →
      dtIncluded g (DomainDatatype.event ev) = true →
      filterParams g ev.params = [] →
      (∀ d' ∈ ds, ∀ dt' ∈ d'.datatypes, dt' = DomainDatatype.event ev ∨
        (DomainDatatype.event ev).identName ∉ dtKeys dt') →
      (∀ pr ∈ g.refSizes, pr.1 ≠ (DomainDatatype.event ev).identName) →
      alookup g'.typeSize (DomainDatatype.event ev).identName = some 0 ∧
      (∀ pr ∈ g'.refSizes, pr.1 ≠ (DomainDatatype.event ev).identName) := by
  induction ds with
  | nil =>
    intro g g' outs h hex _ _ _ _
    simp at hex
  | cons d0 rest ih =>
    intro g g' outs h hex hinc hnp huniq hrs
    rw [genDomains] at h
    split at h
    next hd =>
      split at h
      · cases h
      next g1 items hdom =>
        split at h
        · cases h
        next g2 ds2 hrec =>
          cases h
          have hcfg : g1.config = g.config := genDatatypes_config _ _ _ _ _ hdom
          by_cases hin0 : DomainDatatype.event ev ∈ d0.datatypes
          · obtain ⟨hz, hrs1⟩ := genDatatypes_event_zero d0 ev d0.datatypes
              g g1 items hdom hin0 hinc hnp
              (huniq d0 (List.mem_cons_self _ _)) hrs
            by_cases hrest : ∃ d' ∈ rest, domainIncluded g1 d' = true ∧
                DomainDatatype.event ev ∈ d'.datatypes
            · exact ih _ _ _ hrec hrest
                (by rw [dtIncluded_congr hcfg]; exact hinc)
                (by rw [filterParams_congr hcfg]; exact hnp)
                (fun d' hd' => huniq d' (List.mem_cons_of_mem _ hd')) hrs1
            · have hknotin : ∀ d' ∈ rest, domainIncluded g1 d' = true →
                  ∀ dt' ∈ d'.datatypes,
                  (DomainDatatype.event ev).identName ∉ dtKeys dt' := by
                intro d' hd' hinc' dt' hdt'
                rcases huniq d' (List.mem_cons_of_mem _ hd') dt' hdt' with heqv | hnk
                · exact absurd ⟨d', hd', hinc', heqv ▸ hdt'⟩ hrest
                · exact hnk
              obtain ⟨hp, new, hnew, hfst⟩ :=
                genDomains_preserve rest g1 _ ds2 _ hrec hknotin
              refine ⟨hp.trans hz, ?_⟩
              intro pr hpr
              rw [hnew] at hpr
              rcases List.mem_append.mp hpr with h1 | h1
              · exact hrs1 pr h1
              · exact hfst pr h1
          · have hknotin0 : ∀ dt' ∈ d0.datatypes,
                (DomainDatatype.event ev).identName ∉ dtKeys dt' := by
              intro dt' hdt'
              rcases huniq d0 (List.mem_cons_self _ _) dt' hdt' with heqv | hnk
              · exact absurd (heqv ▸ hdt') hin0
              · exact hnk
            obtain ⟨hp1, new1, hnew1, hfst1⟩ :=
              genDatatypes_preserve d0 d0.datatypes g g1 items _ hdom hknotin0
            have hex2 : ∃ d' ∈ rest, domainIncluded g1 d' = true ∧
                DomainDatatype.event ev ∈ d'.datatypes := by
              obtain ⟨d, hdmem, hdinc, hdev⟩ := hex
              rcases List.mem_cons.mp hdmem with heqv | hm
              · exact absurd (heqv ▸ hdev) hin0
              · exact ⟨d, hm, by rw [domainIncluded_congr hcfg]; exact hdinc, hdev⟩
            have hrs1 : ∀ pr ∈ g1.refSizes,
                pr.1 ≠ (DomainDatatype.event ev).identName := by
              intro pr hpr
              rw [hnew1] at hpr
              rcases List.mem_append.mp hpr with h1 | h1
              · exact hrs pr h1
              · exact hfst1 pr h1
            obtain ⟨hz2, hrs2⟩ := ih _ _ _ hrec hex2
              (by rw [dtIncluded_congr hcfg]; exact hinc)
              (by rw [filterParams_congr hcfg]; exact hnp)
              (fun d' hd' => huniq d' (List.mem_cons_of_mem _ hd')) hrs1
            exact ⟨hz2, hrs2⟩
    next hd =>
      have hex2 : ∃ d' ∈ rest, domainIncluded g d' = true ∧
          DomainDatatype.event ev ∈ d'.datatypes := by
        obtain ⟨d, hdmem, hdinc, hdev⟩ := hex
        rcases List.mem_cons.mp hdmem with heqv | hm
        · exact absurd (heqv ▸ hdinc) hd
        · exact ⟨d, hm, hdinc, hdev⟩
      exact ih g g' outs h hex2 hinc hnp
        (fun d' hd' => huniq d' (List.mem_cons_of_mem _ hd')) hrs

/-- Through the whole document list. -/
theorem genProtocols_event_zero (ev : Event) (inputs : List (String × Protocol)) :
    ∀ (g g' : Generator) (prots : List (String × List DomainOut)),
      genProtocols g inputs = Except.ok (g', prots) →
      (∃ mp ∈ inputs, ∃ d ∈ (mp : String × Protocol).2.domains,
        domainIncluded g d = true ∧ DomainDatatype.event ev ∈ d.datatypes) →
      dtIncluded g (DomainDatatype.event ev) = true →
      filterParams g ev.params = [] →
      (∀ mp ∈ inputs, ∀ d' ∈ (mp : String × Protocol).2.domains,
        ∀ dt' ∈ d'.datatypes, dt' = DomainDatatype.event ev ∨
          (DomainDatatype.event ev).identName ∉ dtKeys dt') →
      (∀ pr ∈ g.refSizes, pr.1 ≠ (DomainDatatype.event ev).identName) →
      alookup g'.typeSize (DomainDatatype.event ev).identName = some 0 ∧
      (∀ pr ∈ g'.refSizes, pr.1 ≠ (DomainDatatype.event ev).identName) := by
  induction inputs with
  | nil =>
    intro g g' prots h hex _ _ _ _
    simp at hex
  | cons mp0 rest ih =>
    intro g g' prots h hex hinc hnp huniq hrs
    obtain ⟨m0, p0⟩ := mp0
    rw [genProtocols] at h
    split at h
    · cases h
    next g1 ds hdoc =>
      split at h
      · cases h
      next g2 ps hrec =>
        cases h
        have hcfg : g1.config = g.config := genDomains_config _ _ _ _ hdoc
        by_cases hin0 : ∃ d ∈ p0.domains, domainIncluded g d = true ∧
            DomainDatatype.event ev ∈ d.datatypes
        · obtain ⟨hz, hrs1⟩ := genDomains_event_zero ev p0.domains
            g g1 ds hdoc hin0 hinc hnp
            (huniq (m0, p0) (List.mem_cons_self _ _)) hrs
          by_cases hrest : ∃ mp ∈ rest, ∃ d ∈ (mp : String × Protocol).2.domains,
              domainIncluded g1 d = true ∧ DomainDatatype.event ev ∈ d.datatypes
          · exact ih _ _ _ hrec hrest
              (by rw [dtIncluded_congr hcfg]; exact hinc)
              (by rw [filterParams_congr hcfg]; exact hnp)
              (fun mp hmp => huniq mp (List.mem_cons_of_mem _ hmp)) hrs1
          · have hknotin : ∀ mp ∈ rest, ∀ d' ∈ (mp : String × Protocol).2.domains,
                domainIncluded g1 d' = true → ∀ dt' ∈ d'.datatypes,
                (DomainDatatype.event ev).identName ∉ dtKeys dt' := by
              intro mp hmp d' hd' hinc' dt' hdt'
              rcases huniq mp (List.mem_cons_of_mem _ hmp) d' hd' dt' hdt'
                with heqv | hnk
              · exact absurd ⟨mp, hmp, d', hd', hinc', heqv ▸ hdt'⟩ hrest
              · exact hnk
            obtain ⟨hp, new, hnew, hfst⟩ :=
              genProtocols_preserve rest g1 _ ps _ hrec hknotin
            refine ⟨hp.trans hz, ?_⟩
            intro pr hpr
            rw [hnew] at hpr
            rcases List.mem_append.mp hpr with h1 | h1
            · exact hrs1 pr h1
            · exact hfst pr h1
        · have hknotin0 : ∀ d' ∈ p0.domains, domainIncluded g d' = true →
              ∀ dt' ∈ d'.datatypes,
              (DomainDatatype.event ev).identName ∉ dtKeys dt' := by
            intro d' hd' hinc' dt' hdt'
            rcases huniq (m0, p0) (List.mem_cons_self _ _) d' hd' dt' hdt'
              with heqv | hnk
            · exact absurd ⟨d', hd', hinc', heqv ▸ hdt'⟩ hin0
            · exact hnk
          obtain ⟨hp1, new1, hnew1, hfst1⟩ :=
            genDomains_preserve p0.domains g g1 ds _ hdoc hknotin0
          have hex2 : ∃ mp ∈ rest, ∃ d ∈ (mp : String × Protocol).2.domains,
              domainIncluded g1 d = true ∧
              DomainDatatype.event ev ∈ d.datatypes := by
            obtain ⟨mp, hmp, d, hdmem, hdinc, hdev⟩ := hex
            rcases List.mem_cons.mp hmp with heqv | hm
            · refine absurd ⟨d, ?_, hdinc, hdev⟩ hin0
              rw [heqv] at hdmem
              exact hdmem
            · exact ⟨mp, hm, d, hdmem,
                by rw [domainIncluded_congr hcfg]; exact hdinc, hdev⟩
          have hrs1 : ∀ pr ∈ g1.refSizes,
              pr.1 ≠ (DomainDatatype.event ev).identName := by
            intro pr hpr
            rw [hnew1] at hpr
            rcases List.mem_append.mp hpr with h1 | h1
            · exact hrs pr h1
            · exact hfst1 pr h1
          exact ih _ _ _ hrec hex2
            (by rw [dtIncluded_congr hcfg]; exact hinc)
            (by rw [filterParams_congr hcfg]; exact hnp)
            (fun mp hmp => huniq mp (List.mem_cons_of_mem _ hmp)) hrs1

/-! ## Event union completeness -/

theorem genEventsDts_complete (g : Generator) (d : Domain)
    (dts : List DomainDatatype) :
    ∀ (vs : List EventVariant), genEventsDts g d dts = Except.ok vs →
      ∀ dt ∈ dts, eventIncluded g dt = true →
        ∃ v ∈ vs, mkEventVariant g d dt = Except.ok v := by
  induction dts with
  | nil =>
    intro vs h dt hmem _
    simp at hmem
  | cons dt0 rest ih =>
    intro vs h dt hmem hinc
    rw [genEventsDts] at h
    split at h
    next hd =>
      split at h
      · cases h
      next v0 hv0 =>
        split at h
        · cases h
        next vs0 hvs0 =>
          cases h
          rcases List.mem_cons.mp hmem with heqv | hm
          · subst heqv
            exact ⟨v0, List.mem_cons_self _ _, hv0⟩
          · obtain ⟨v, hvmem, hv⟩ := ih vs0 hvs0 dt hm hinc
            exact ⟨v, List.mem_cons_of_mem _ hvmem, hv⟩
    next hd =>
      rcases List.mem_cons.mp hmem with heqv | hm
      · subst heqv
        exact absurd hinc hd
      · exact ih vs h dt hm hinc

theorem genEventsDomains_complete (g : Generator) (ds : List Domain) :
    ∀ (vs : List EventVariant), genEventsDomains g ds = Except.ok vs →
      ∀ d ∈ ds, domainIncluded g d = true →
      ∀ dt ∈ d.datatypes, eventIncluded g dt = true →
        ∃ v ∈ vs, mkEventVariant g d dt = Except.ok v := by
  induction ds with
  | nil =>
    intro vs h d hmem
    simp at hmem
  | cons d0 rest ih =>
    intro vs h d hmem hinc dt hdt hedt
    rw [genEventsDomains] at h
    split at h
    next hd =>
      split at h
      · cases h
      next vs0 hvs0 =>
        split at h
        · cases h
        next ws0 hws0 =>
          cases h
          rcases List.mem_cons.mp hmem with heqv | hm
          · subst heqv
            obtain ⟨v, hvmem, hv⟩ := genEventsDts_complete g d d.datatypes
              vs0 hvs0 dt hdt hedt
            exact ⟨v, List.mem_append_left _ hvmem, hv⟩
          · obtain ⟨v, hvmem, hv⟩ := ih ws0 hws0 d hm hinc dt hdt hedt
            exact ⟨v, List.mem_append_right _ hvmem, hv⟩
    next hd =>
      rcases List.mem_cons.mp hmem with heqv | hm
      · subst heqv
        exact absurd hinc hd
      · exact ih vs h d hm hinc dt hdt hedt

theorem generate_event_enums_complete (g : Generator) (pdls : List Protocol) :
    ∀ (vs : List EventVariant), generate_event_enums g pdls = Except.ok vs →
      ∀ p ∈ pdls, ∀ d ∈ p.domains, domainIncluded g d = true →
      ∀ dt ∈ d.datatypes, eventIncluded g dt = true →
        ∃ v ∈ vs, mkEventVariant g d dt = Except.ok v := by
  induction pdls with
  | nil =>
    intro vs h p hmem
    simp at hmem
  | cons p0 rest ih =>
    intro vs h p hmem hd hdm hinc dt hdt hedt
    rw [generate_event_enums] at h
    split at h
    · cases h
    next vs0 hvs0 =>
      split at h
      · cases h
      next ws0 hws0 =>
        cases h
        rcases List.mem_cons.mp hmem with heqv | hm
        · subst heqv
          obtain ⟨v, hvmem, hv⟩ := genEventsDomains_complete g p.domains
            vs0 hvs0 hd hdm hinc dt hdt hedt
          exact ⟨v, List.mem_append_left _ hvmem, hv⟩
        · obtain ⟨v, hvmem, hv⟩ := ih ws0 hws0 p hm hd hdm hinc dt hdt hedt
          exact ⟨v, List.mem_append_right _ hvmem, hv⟩

/-! ## C10: parameterless events (corrected) -/

/-- Counterexample to C10 as stated: in `protoCol` the parameterless
event `thing` (domain `Alpha`) shares its camel-cased ident `Thing` with
a later datatype; the fix-up adds that datatype's 216 size-units to the
shared entry, so the parameterless event's finalized size is 216 — not
0 — and its union case is boxed, not inline. -/
theorem claim_c10_counterexample :
    compile_pdls Generator.default [("p", protoCol)] = Except.ok colOut ∧
    filterParams Generator.default evThing.params = [] ∧
    DomainDatatype.event evThing ∈ domAlpha.datatypes ∧
    alookup colOut.typeSize (DomainDatatype.event evThing).identName =
      some 216 ∧
    vThing ∈ colOut.events ∧
    vThing.tyIdent = (DomainDatatype.event evThing).identName ∧
    vThing.boxed = true := by
  exact ⟨rfl, by decide, by decide, by decide, by decide, by decide, by decide⟩

/-- C10 (amended): generating a zero-(post-filter)-parameter `Command`
or `Event` inserts a size-table entry of exactly 0, overwriting rather
than adding to any prior value; consequently a parameterless event
whose camel-cased ident is not in any other datatype's key footprint
has a finalized size of 0 and its `Event` union case is embedded
inline, never boxed. -/
theorem claim_c10_amended :
    (∀ (g : Generator) (domain : Domain) (dt : DomainDatatype)
        (structIdent : String) (g' : Generator) (out : StructOut),
      dt.isType = false →
      generate_struct g domain dt structIdent [] = Except.ok (g', out) →
      g'.typeSize = aset g.typeSize structIdent 0) ∧
    (∀ (m : List (String × Nat)) (k : String) (v : Nat),
      alookup (aset m k v) k = some v) ∧
    (∀ (g : Generator) (inputs : List (String × Protocol)) (out : Output)
        (modName : String) (proto : Protocol) (d : Domain) (ev : Event),
      g.refSizes = [] →
      compile_pdls g inputs = Except.ok out →
      (modName, proto) ∈ inputs →
      d ∈ proto.domains →
      DomainDatatype.event ev ∈ d.datatypes →
      domainIncluded g d = true →
      dtIncluded g (DomainDatatype.event ev) = true →
      filterParams g ev.params = [] →
      (∀ mp ∈ inputs, ∀ d' ∈ (mp : String × Protocol).2.domains,
        ∀ dt' ∈ d'.datatypes, dt' = DomainDatatype.event ev ∨
          (DomainDatatype.event ev).identName ∉ dtKeys dt') →
      alookup out.typeSize (DomainDatatype.event ev).identName = some 0 ∧
      (∃ v ∈ out.events,
        v.varIdent = toCamelCase d.name ++ toCamelCase ev.name ∧
        v.tyIdent = (DomainDatatype.event ev).identName ∧ v.boxed = false) ∧
      (∀ v ∈ out.events,
        v.tyIdent = (DomainDatatype.event ev).identName → v.boxed = false)) := by
  refine ⟨?_, fun m k v => alookup_aset_self m k v, ?_⟩
  · intro g domain dt structIdent g' out hnt h
    cases dt with
    | type td => simp [DomainDatatype.isType] at hnt
    | command c =>
      have h1 : (({ g with typeSize := aset g.typeSize structIdent 0 },
          ({ ident := structIdent, fields := [], hoisted := []
             wrapper := Option.none, hashEq := false, asRefStr := false
             emptyMarker := true, builder := Option.none } : StructOut)) :
          Generator × StructOut) = (g', out) := Except.ok.inj h
      cases h1
      rfl
    | event e =>
      have h1 : (({ g with typeSize := aset g.typeSize structIdent 0 },
          ({ ident := structIdent, fields := [], hoisted := []
             wrapper := Option.none, hashEq := false, asRefStr := false
             emptyMarker := true, builder := Option.none } : StructOut)) :
          Generator × StructOut) = (g', out) := Except.ok.inj h
      cases h1
      rfl
  · intro g inputs out modName proto d ev hrs hok hin hd hevd hdi hei hnp huniq
    rw [compile_pdls] at hok
    split at hok
    · cases hok
    next g1 prots hgen =>
      split at hok
      · cases hok
      next table hdrain =>
        split at hok
        · cases hok
        next events hevents =>
          cases hok
          have hrs0 : ∀ pr ∈ (registerPhase g inputs).refSizes,
              pr.1 ≠ (DomainDatatype.event ev).identName := by
            intro pr hpr
            have : (registerPhase g inputs).refSizes = [] := hrs
            rw [this] at hpr
            simp at hpr
          obtain ⟨hz, hpairs⟩ := genProtocols_event_zero ev inputs
            (registerPhase g inputs) g1 prots hgen
            ⟨(modName, proto), hin, d, hd, hdi, hevd⟩ hei hnp huniq hrs0
          have htable : alookup table (DomainDatatype.event ev).identName =
              some 0 := by
            rw [drainRefs_preserve g1.refSizes g1.typeSize table _ hpairs hdrain]
            exact hz
          have hcfg1 : g1.config = (registerPhase g inputs).config :=
            genProtocols_config _ _ _ _ hgen
          refine ⟨htable, ?_, ?_⟩
          · have hproto : proto ∈ inputs.map Prod.snd := by
              have := List.mem_map_of_mem Prod.snd hin
              simpa using this
            have hdi2 : domainIncluded
                { g1 with typeSize := table, refSizes := [] } d = true := by
              have h1 : domainIncluded
                  { g1 with typeSize := table, refSizes := [] } d =
                  domainIncluded g1 d := rfl
              rw [h1, domainIncluded_congr hcfg1]
              exact hdi
            have hei2 : eventIncluded
                { g1 with typeSize := table, refSizes := [] }
                (DomainDatatype.event ev) = true := by
              have h1 : eventIncluded
                  { g1 with typeSize := table, refSizes := [] }
                  (DomainDatatype.event ev) =
                  eventIncluded g1 (DomainDatatype.event ev) := rfl
              rw [h1, eventIncluded_congr hcfg1]
              simp only [eventIncluded, DomainDatatype.isEvent, Bool.true_and]
              exact hei
            obtain ⟨v, hvmem, hv⟩ := generate_event_enums_complete _
              (inputs.map Prod.snd) events hevents proto hproto d hd hdi2
              (DomainDatatype.event ev) hevd hei2
            obtain ⟨idx, size, hidx, hsize, hveq⟩ :=
              mkEventVariant_char _ d (DomainDatatype.event ev) v hv
            have hsize0 : size = 0 := by
              have : alookup table (DomainDatatype.event ev).identName =
                  some size := hsize
              rw [htable] at this
              exact (Option.some.inj this).symm
            refine ⟨v, hvmem, ?_, ?_, ?_⟩
            · rw [hveq]
              rfl
            · rw [hveq]
            · rw [hveq, hsize0]
              simp
          · intro v hvmem hvty
            obtain ⟨size, hsize, hboxed⟩ := generate_event_enums_boxed _
              (inputs.map Prod.snd) events hevents v hvmem
            rw [hvty] at hsize
            have hsize0 : size = 0 := by
              have : alookup table (DomainDatatype.event ev).identName =
                  some size := hsize
              rw [htable] at this
              exact (Option.some.inj this).symm
            rw [hboxed, hsize0]
            simp

/-- Witness for the amended C10: the parameterless event `ping` shares
its ident with nothing in `protoPing`, so its finalized size is 0 and
its union case is inline. -/
theorem claim_c10_amended_witness :
    alookup pingOut.typeSize (DomainDatatype.event evPing).identName =
      some 0 ∧
    (∃ v ∈ pingOut.events,
      v.varIdent = toCamelCase domGamma.name ++ toCamelCase evPing.name ∧
      v.tyIdent = (DomainDatatype.event evPing).identName ∧
      v.boxed = false) ∧
    (∀ v ∈ pingOut.events,
      v.tyIdent = (DomainDatatype.event evPing).identName →
      v.boxed = false) := by
  exact claim_c10_amended.2.2 Generator.default [("p", protoPing)] pingOut
    "p" protoPing domGamma evPing (by rfl) (by rfl) (by decide) (by decide)
    (by decide) (by decide) (by decide) (by decide) (by decide)

end Chromeoxid
